import Mathlib

/-!
Verification of the fez sync core (github.com/homemade/fez).

This file gives a shallow embedding, in Lean 4, of the parts of the Go
source that the specification talks about:

* the streak/derived-metric engine (`CurrentDaysForStreak`,
  `AddMissingDaysForStreak`, `EpochDays.MaxConsecutiveDays`,
  `CalcDaysForStreakFromEntries`, the streak and split-exercise-total
  sections of `ApplyFundraiserExtensions` in the extensions source file);
* the inclusion predicates `ExerciseLogEntry.IncludeForStreak` and
  `Donation.IncludeForStreak` (sync/modifiers.go);
* the declarative field-mapping engine `mapFields` (sync/field_mapper.go);
* the transform engines `ApplyFundraiserFieldTransforms` and
  `ApplyTeamFieldTransforms`;
* the campaign cache `CachedFundraisingCampaign` and the concurrent
  fan-out `FetchFundraiserData` (sync/modifiers.go).

Modelling conventions:
* Go strings are modelled as `List Char` where their contents are computed
  on (streak values, transform directives) and as `String` where they are
  only compared for equality (paths, field names, labels).
* Go `int`/`int64` are modelled as unbounded `Int`; the configured streak
  thresholds and day counts are tiny, so overflow does not matter here
  (`strconv.Atoi` range errors are not modelled).
* Go `float64` fields (`Distance`, `Amount`) are modelled as `Rat`; the
  source only compares them against integer constants.
* `time.Time` is modelled as seconds plus nanoseconds since the Unix epoch
  (`GoTime`); `time.Parse(time.RFC3339, s)` is modelled by an executable
  parser `parseRFC3339` for the RFC3339 grammar used by Go.
* Go map iteration is rendered as iteration over association lists; all
  properties proved here are insensitive to that order.
* error returns are modelled with `Except`/`Option`; a Go runtime panic
  (the unchecked type assertion in the donation-window transform) is
  modelled as the distinguished error result `TransformErr.goPanic`.
-/

/-- Go `strings.Split(s, sep)` for a one-character separator, over char
lists.  `splitOnChar sep s` always returns a non-empty list of segments. -/
def splitOnChar (sep : Char) (s : List Char) : List (List Char) :=
  s.foldr
    (fun c r =>
      match r with
      | [] => [[]]
      | h :: t => if c = sep then [] :: h :: t else (c :: h) :: t)
    [[]]

/-- Characters accepted by Go `strconv.Atoi` after the optional sign. -/
def isGoDigit (c : Char) : Bool := '0' ≤ c && c ≤ '9'

/-- Numeric value of a decimal digit character. -/
def goDigitVal (c : Char) : Nat := c.toNat - '0'.toNat

/-- Value of a string of decimal digits, most significant first. -/
def goDigitsVal (s : List Char) : Nat :=
  s.foldl (fun acc c => 10 * acc + goDigitVal c) 0

/-- Parse a non-empty all-digit string into a natural number
(the unsigned part of Go `strconv.Atoi`). -/
def parseNatDigits (s : List Char) : Option Nat :=
  if s ≠ [] ∧ s.all isGoDigit then some (goDigitsVal s) else none

/-- Go `strconv.Atoi`: optional sign followed by a non-empty digit string.
Range errors of the 64-bit `int` type are not modelled. -/
def goAtoi (s : List Char) : Option Int :=
  match s with
  | [] => none
  | c :: rest =>
    if c = '-' then (parseNatDigits rest).map fun n => -(n : Int)
    else if c = '+' then (parseNatDigits rest).map fun n => (n : Int)
    else (parseNatDigits (c :: rest)).map fun n => (n : Int)

/-- Decimal digits of `n`, most significant first, by structural recursion
on a fuel bound (empty for `n = 0`). -/
def natToDecAux : Nat → Nat → List Char
  | 0, _ => []
  | fuel + 1, n =>
    if n = 0 then [] else natToDecAux fuel (n / 10) ++ [Nat.digitChar (n % 10)]

/-- Decimal rendering of a natural number, most significant digit first. -/
def natToDec (n : Nat) : List Char :=
  if n = 0 then ['0'] else natToDecAux n n

/-- Left-pad a digit string with zeros to width `w`. -/
def leftPadZero (w : Nat) (s : List Char) : List Char :=
  List.replicate (w - s.length) '0' ++ s

/-- Go `fmt.Sprintf("%03d", d)`: zero-padded to width 3, the sign counting
towards the width. -/
def goFormat3 (d : Int) : List Char :=
  if d < 0 then '-' :: leftPadZero 2 (natToDec (-d).toNat)
  else leftPadZero 3 (natToDec d.toNat)

/-- `CurrentDaysForStreak` from the extensions source: split the stored
streak value on the pipe character and keep the segments `strconv.Atoi`
accepts. -/
def CurrentDaysForStreak (value : List Char) : List Int :=
  if value = [] then [] else (splitOnChar '|' value).filterMap goAtoi

/-- The append loop at the end of `AddMissingDaysForStreak`: for each
missing threshold not exceeding `max`, append its three-digit rendering,
pipe-separated (no separator onto an empty value). -/
def appendDaysLoop (max : Int) (ds : List Int) (value : List Char) : List Char :=
  ds.foldl
    (fun r d =>
      if max ≥ d then
        if r = [] then goFormat3 d else r ++ '|' :: goFormat3 d
      else r)
    value

/-- `AddMissingDaysForStreak` from the extensions source. -/
def AddMissingDaysForStreak (max : Int) (days : List Int) (value : List Char) :
    List Char :=
  if max < 1 then value
  else
    let current := CurrentDaysForStreak value
    let missing := if current = [] then days
      else days.filter (fun d => decide (d ∉ current))
    if missing = [] then value
    else appendDaysLoop max missing value

example : AddMissingDaysForStreak 6 [3, 5] [] = "003|005".toList := by decide
example : AddMissingDaysForStreak 6 [3, 5] "003|005".toList = "003|005".toList := by
  decide
example : AddMissingDaysForStreak 2 [3, 5] "003|005".toList = "003|005".toList := by
  decide
example : AddMissingDaysForStreak 6 [5, 3] [] = "005|003".toList := by decide
example : AddMissingDaysForStreak 9 [10, 15, 20] [] = [] := by decide
example : AddMissingDaysForStreak 20 [10, 15, 20] [] = "010|015|020".toList := by
  decide

/-! Lemmas about the split/format/parse helpers. -/

theorem splitOnChar_cons (sep c : Char) (cs : List Char) :
    splitOnChar sep (c :: cs) =
      match splitOnChar sep cs with
      | [] => [[]]
      | h :: t => if c = sep then [] :: h :: t else (c :: h) :: t := rfl

theorem splitOnChar_ne_nil (sep : Char) (s : List Char) : splitOnChar sep s ≠ [] := by
  induction s with
  | nil => simp [splitOnChar]
  | cons c cs ih =>
    rw [splitOnChar_cons]
    cases h : splitOnChar sep cs with
    | nil => simp
    | cons hd tl => by_cases hc : c = sep <;> simp [hc]

theorem splitOnChar_append_sep (sep : Char) (a b : List Char) :
    splitOnChar sep (a ++ sep :: b) = splitOnChar sep a ++ splitOnChar sep b := by
  induction a with
  | nil =>
    rw [List.nil_append, splitOnChar_cons]
    cases h : splitOnChar sep b with
    | nil => exact absurd h (splitOnChar_ne_nil sep b)
    | cons hd tl => simp [splitOnChar]
  | cons c a ih =>
    rw [List.cons_append, splitOnChar_cons, ih, splitOnChar_cons]
    cases h : splitOnChar sep a with
    | nil => exact absurd h (splitOnChar_ne_nil sep a)
    | cons ha ta => by_cases hc : c = sep <;> simp [hc, List.cons_append]

theorem splitOnChar_of_not_mem (sep : Char) (s : List Char) (h : sep ∉ s) :
    splitOnChar sep s = [s] := by
  induction s with
  | nil => simp [splitOnChar]
  | cons c cs ih =>
    have hc : c ≠ sep := fun hcs => h (hcs ▸ List.mem_cons_self c cs)
    have hcs2 : sep ∉ cs := fun hm => h (List.mem_cons_of_mem c hm)
    rw [splitOnChar_cons, ih hcs2]
    simp [hc]

theorem digitChar_isGoDigit (d : Nat) (h : d < 10) :
    isGoDigit (Nat.digitChar d) = true := by
  interval_cases d <;> decide

theorem goDigitVal_digitChar (d : Nat) (h : d < 10) :
    goDigitVal (Nat.digitChar d) = d := by
  interval_cases d <;> decide

theorem natToDecAux_all_digit :
    ∀ fuel n c, c ∈ natToDecAux fuel n → isGoDigit c = true := by
  intro fuel
  induction fuel with
  | zero => intro n c hc; simp [natToDecAux] at hc
  | succ fuel ih =>
    intro n c hc
    by_cases h0 : n = 0
    · simp [natToDecAux, h0] at hc
    · simp only [natToDecAux, if_neg h0, List.mem_append, List.mem_singleton] at hc
      rcases hc with hc | hc
      · exact ih _ _ hc
      · exact hc ▸ digitChar_isGoDigit _ (Nat.mod_lt _ (by norm_num))

theorem goDigitsVal_append (xs : List Char) (c : Char) :
    goDigitsVal (xs ++ [c]) = 10 * goDigitsVal xs + goDigitVal c := by
  simp [goDigitsVal, List.foldl_append]

theorem natToDecAux_val : ∀ fuel n, n ≤ fuel → goDigitsVal (natToDecAux fuel n) = n := by
  intro fuel
  induction fuel with
  | zero =>
    intro n h
    have h0 : n = 0 := Nat.le_zero.mp h
    simp [natToDecAux, goDigitsVal, h0]
  | succ fuel ih =>
    intro n h
    by_cases h0 : n = 0
    · simp [natToDecAux, h0, goDigitsVal]
    · have hdiv : n / 10 < n := Nat.div_lt_self (Nat.pos_of_ne_zero h0) (by norm_num)
      rw [natToDecAux, if_neg h0, goDigitsVal_append,
        ih (n / 10) (by omega), goDigitVal_digitChar _ (Nat.mod_lt _ (by norm_num))]
      omega

theorem natToDec_ne_nil (n : Nat) : natToDec n ≠ [] := by
  unfold natToDec
  split
  · simp
  · cases n with
    | zero => simp_all
    | succ m =>
      simp [natToDecAux, Nat.succ_ne_zero]

theorem natToDec_all_digit (n : Nat) (c : Char) (h : c ∈ natToDec n) :
    isGoDigit c = true := by
  unfold natToDec at h
  split at h
  · simp at h
    subst h
    decide
  · exact natToDecAux_all_digit _ _ _ h

theorem goDigitsVal_natToDec (n : Nat) : goDigitsVal (natToDec n) = n := by
  unfold natToDec
  split
  · simp_all [goDigitsVal, goDigitVal]
  · exact natToDecAux_val n n le_rfl

theorem goDigitsVal_replicate_zero (k : Nat) (s : List Char) :
    goDigitsVal (List.replicate k '0' ++ s) = goDigitsVal s := by
  have hz : ∀ j : Nat, (List.replicate j '0').foldl
      (fun acc c => 10 * acc + goDigitVal c) 0 = 0 := by
    intro j
    induction j with
    | zero => rfl
    | succ j ih => simpa [List.replicate_succ, goDigitVal] using ih
  simp [goDigitsVal, List.foldl_append, hz]

theorem mem_leftPadZero (w : Nat) (s : List Char) (c : Char)
    (h : c ∈ leftPadZero w s) : c = '0' ∨ c ∈ s := by
  unfold leftPadZero at h
  rcases List.mem_append.mp h with h | h
  · exact Or.inl (List.eq_of_mem_replicate h)
  · exact Or.inr h

theorem leftPadZero_ne_nil (w : Nat) (s : List Char) (hs : s ≠ []) :
    leftPadZero w s ≠ [] := by
  unfold leftPadZero
  simp [hs]

theorem parseNatDigits_leftPad_natToDec (w n : Nat) :
    parseNatDigits (leftPadZero w (natToDec n)) = some n := by
  unfold parseNatDigits
  rw [if_pos]
  · rw [show leftPadZero w (natToDec n) =
        List.replicate (w - (natToDec n).length) '0' ++ natToDec n from rfl,
      goDigitsVal_replicate_zero, goDigitsVal_natToDec]
  · refine ⟨leftPadZero_ne_nil w _ (natToDec_ne_nil n), ?_⟩
    rw [List.all_eq_true]
    intro c hc
    rcases mem_leftPadZero _ _ _ hc with h | h
    · subst h; decide
    · exact natToDec_all_digit n c h

theorem goFormat3_ne_nil (d : Int) : goFormat3 d ≠ [] := by
  unfold goFormat3
  split
  · simp
  · exact leftPadZero_ne_nil _ _ (natToDec_ne_nil _)

theorem mem_goFormat3 (d : Int) (c : Char) (h : c ∈ goFormat3 d) :
    c = '-' ∨ isGoDigit c = true := by
  unfold goFormat3 at h
  split at h
  · rcases List.mem_cons.mp h with h | h
    · exact Or.inl h
    · rcases mem_leftPadZero _ _ _ h with h | h
      · subst h; right; decide
      · exact Or.inr (natToDec_all_digit _ _ h)
  · rcases mem_leftPadZero _ _ _ h with h | h
    · subst h; right; decide
    · exact Or.inr (natToDec_all_digit _ _ h)

theorem pipe_not_mem_goFormat3 (d : Int) : '|' ∉ goFormat3 d := by
  intro h
  rcases mem_goFormat3 d '|' h with h | h
  · exact absurd h (by decide)
  · exact absurd h (by decide)

theorem goAtoi_goFormat3 (d : Int) : goAtoi (goFormat3 d) = some d := by
  rcases lt_or_ge d 0 with hneg | hpos
  · rw [show goFormat3 d = '-' :: leftPadZero 2 (natToDec (-d).toNat) from by
      unfold goFormat3; rw [if_pos hneg]]
    rw [show goAtoi ('-' :: leftPadZero 2 (natToDec (-d).toNat)) =
        (parseNatDigits (leftPadZero 2 (natToDec (-d).toNat))).map
          (fun n => -(n : Int)) from rfl]
    rw [parseNatDigits_leftPad_natToDec]
    have h2 : ((-d).toNat : Int) = -d := Int.toNat_of_nonneg (by omega)
    simp [h2]
  · have hfmt : goFormat3 d = leftPadZero 3 (natToDec d.toNat) := by
      unfold goFormat3; rw [if_neg (by omega)]
    obtain ⟨c, rest, hcr⟩ : ∃ c rest, goFormat3 d = c :: rest := by
      cases hl : goFormat3 d with
      | nil => exact absurd hl (goFormat3_ne_nil d)
      | cons x y => exact ⟨x, y, rfl⟩
    have hcd : isGoDigit c = true := by
      have hmem : c ∈ goFormat3 d := by rw [hcr]; exact List.mem_cons_self c rest
      rcases mem_goFormat3 d c hmem with h | h
      · exfalso
        rw [hfmt] at hmem
        rcases mem_leftPadZero _ _ _ hmem with h2 | h2
        · rw [h] at h2; exact absurd h2 (by decide)
        · have := natToDec_all_digit _ _ h2
          rw [h] at this
          exact absurd this (by decide)
      · exact h
    have hne1 : c ≠ '-' := by intro hc; rw [hc] at hcd; exact absurd hcd (by decide)
    have hne2 : c ≠ '+' := by intro hc; rw [hc] at hcd; exact absurd hcd (by decide)
    rw [hcr]
    rw [show goAtoi (c :: rest) =
        if c = '-' then (parseNatDigits rest).map (fun n => -(n : Int))
        else if c = '+' then (parseNatDigits rest).map (fun n => (n : Int))
        else (parseNatDigits (c :: rest)).map (fun n => (n : Int)) from rfl]
    rw [if_neg hne1, if_neg hne2, ← hcr, hfmt, parseNatDigits_leftPad_natToDec]
    simp [Int.toNat_of_nonneg hpos]

/-! Lemmas about the streak value encoding. -/

theorem currentDays_goFormat3 (d : Int) :
    CurrentDaysForStreak (goFormat3 d) = [d] := by
  unfold CurrentDaysForStreak
  rw [if_neg (goFormat3_ne_nil d),
    splitOnChar_of_not_mem _ _ (pipe_not_mem_goFormat3 d)]
  simp [goAtoi_goFormat3]

theorem currentDays_append_pipe (r : List Char) (hr : r ≠ []) (d : Int) :
    CurrentDaysForStreak (r ++ '|' :: goFormat3 d) =
      CurrentDaysForStreak r ++ [d] := by
  unfold CurrentDaysForStreak
  rw [if_neg (by simp [hr]), if_neg hr, splitOnChar_append_sep,
    List.filterMap_append, splitOnChar_of_not_mem _ _ (pipe_not_mem_goFormat3 d)]
  simp [goAtoi_goFormat3]

theorem appendDaysLoop_cons (max d : Int) (ds : List Int) (r : List Char) :
    appendDaysLoop max (d :: ds) r =
      appendDaysLoop max ds
        (if max ≥ d then
          if r = [] then goFormat3 d else r ++ '|' :: goFormat3 d
         else r) := rfl

theorem currentDays_appendDaysLoop (max : Int) :
    ∀ (ds : List Int) (r : List Char),
      CurrentDaysForStreak (appendDaysLoop max ds r) =
        CurrentDaysForStreak r ++ ds.filter (fun d => decide (d ≤ max)) := by
  intro ds
  induction ds with
  | nil => intro r; simp [appendDaysLoop]
  | cons d ds ih =>
    intro r
    rw [appendDaysLoop_cons]
    by_cases hmd : max ≥ d
    · rw [if_pos hmd]
      by_cases hr0 : r = []
      · rw [if_pos hr0, ih, currentDays_goFormat3, hr0]
        simp [CurrentDaysForStreak, ge_iff_le.mp hmd]
      · rw [if_neg hr0, ih, currentDays_append_pipe r hr0]
        simp [ge_iff_le.mp hmd]
    · rw [if_neg hmd, ih]
      have : ¬ d ≤ max := fun h => hmd h
      simp [this]

theorem appendDaysLoop_no_append (max : Int) :
    ∀ (ds : List Int) (r : List Char), (∀ d ∈ ds, ¬ d ≤ max) →
      appendDaysLoop max ds r = r := by
  intro ds
  induction ds with
  | nil => intro r _; rfl
  | cons d ds ih =>
    intro r h
    rw [appendDaysLoop_cons,
      if_neg (fun hge => h d (List.mem_cons_self d ds) hge)]
    exact ih r fun x hx => h x (List.mem_cons_of_mem d hx)

theorem missing_eq_filter (days current : List Int) :
    (if current = [] then days
      else days.filter (fun d => decide (d ∉ current))) =
    days.filter (fun d => decide (d ∉ current)) := by
  split
  · subst current
    simp
  · rfl

/-- Unfolding of `AddMissingDaysForStreak` in the main case, with the
`missing` branch normalised to a single filter. -/
theorem addMissing_eq (max : Int) (days : List Int) (value : List Char)
    (hmax : ¬ max < 1) :
    AddMissingDaysForStreak max days value =
      (if days.filter
            (fun d => decide (d ∉ CurrentDaysForStreak value)) = [] then value
       else appendDaysLoop max
         (days.filter (fun d => decide (d ∉ CurrentDaysForStreak value)))
         value) := by
  unfold AddMissingDaysForStreak
  rw [if_neg hmax]
  simp only [missing_eq_filter]

theorem appendDaysLoop_flatMap (max : Int) :
    ∀ (ds : List Int) (r : List Char), r ≠ [] →
      appendDaysLoop max ds r =
        r ++ (ds.filter (fun d => decide (d ≤ max))).flatMap
          (fun d => '|' :: goFormat3 d) := by
  intro ds
  induction ds with
  | nil => intro r _; simp [appendDaysLoop]
  | cons d ds ih =>
    intro r hr
    rw [appendDaysLoop_cons]
    by_cases hmd : max ≥ d
    · rw [if_pos hmd, if_neg hr, ih _ (by simp [hr])]
      have hdle : decide (d ≤ max) = true := decide_eq_true (ge_iff_le.mp hmd)
      simp [hdle]
    · rw [if_neg hmd, ih _ hr]
      have hdle : decide (d ≤ max) = false := by
        simp only [decide_eq_false_iff_not]
        exact fun hle => hmd hle
      simp [hdle]

/-- C1: streak state is an append-only ratchet.  Every threshold recorded
in the stored streak string survives recomputation, and recomputing with
the same or a smaller observed maximum consecutive-day run returns the
identical string (`AddMissingDaysForStreak` is idempotent on its own
output).  Concretely, with thresholds {3,5} and 6 consecutive days the
first computation yields "003|005" and a second computation yields
"003|005" again. -/
theorem addMissingDays_ratchet_idempotent (max maxSmaller : Int)
    (days : List Int) (value : List Char) (h : maxSmaller ≤ max) :
    (∀ d ∈ CurrentDaysForStreak value,
        d ∈ CurrentDaysForStreak (AddMissingDaysForStreak max days value))
    ∧ AddMissingDaysForStreak maxSmaller days
        (AddMissingDaysForStreak max days value) =
      AddMissingDaysForStreak max days value
    ∧ AddMissingDaysForStreak 6 [3, 5] [] = "003|005".toList
    ∧ AddMissingDaysForStreak 6 [3, 5] "003|005".toList = "003|005".toList := by
  refine ⟨?_, ?_, by decide, by decide⟩
  · intro d hd
    by_cases hmax : max < 1
    · unfold AddMissingDaysForStreak
      rw [if_pos hmax]
      exact hd
    · rw [addMissing_eq max days value hmax]
      split
      · exact hd
      · rw [currentDays_appendDaysLoop]
        exact List.mem_append_left _ hd
  · by_cases hmax : max < 1
    · have hv : AddMissingDaysForStreak max days value = value := by
        unfold AddMissingDaysForStreak
        rw [if_pos hmax]
      rw [hv]
      unfold AddMissingDaysForStreak
      rw [if_pos (by omega : maxSmaller < 1)]
    · rw [addMissing_eq max days value hmax]
      set M := days.filter
        (fun d => decide (d ∉ CurrentDaysForStreak value)) with hM
      by_cases hM0 : M = []
      · rw [if_pos hM0]
        by_cases hms : maxSmaller < 1
        · unfold AddMissingDaysForStreak
          rw [if_pos hms]
        · rw [addMissing_eq maxSmaller days value hms, ← hM, if_pos hM0]
      · rw [if_neg hM0]
        set r := appendDaysLoop max M value with hr
        have hparse : CurrentDaysForStreak r =
            CurrentDaysForStreak value ++
              M.filter (fun d => decide (d ≤ max)) := by
          rw [hr]
          exact currentDays_appendDaysLoop max M value
        by_cases hms : maxSmaller < 1
        · unfold AddMissingDaysForStreak
          rw [if_pos hms]
        · rw [addMissing_eq maxSmaller days r hms]
          set M2 := days.filter
            (fun d => decide (d ∉ CurrentDaysForStreak r)) with hM2
          have hnone : ∀ d ∈ M2, ¬ d ≤ maxSmaller := by
            intro d hdM2
            rw [hM2, List.mem_filter] at hdM2
            obtain ⟨hdays, hdec⟩ := hdM2
            have hnotin : d ∉ CurrentDaysForStreak r := of_decide_eq_true hdec
            rw [hparse] at hnotin
            have hnotin1 : d ∉ CurrentDaysForStreak value :=
              fun hmem => hnotin (List.mem_append_left _ hmem)
            have hnotin2 : d ∉ M.filter (fun d => decide (d ≤ max)) :=
              fun hmem => hnotin (List.mem_append_right _ hmem)
            have hdM : d ∈ M := by
              rw [hM, List.mem_filter]
              exact ⟨hdays, decide_eq_true hnotin1⟩
            have hgt : ¬ d ≤ max := by
              intro hle
              exact hnotin2 (List.mem_filter.mpr ⟨hdM, decide_eq_true hle⟩)
            omega
          split
          · rfl
          · exact appendDaysLoop_no_append maxSmaller M2 r hnone

/-- Witness for C1 at a concrete input: prior value "003", thresholds
{3,5}, first run length 6, second run length 4. -/
theorem addMissingDays_ratchet_idempotent_witness :
    (4 : Int) ≤ 6 ∧
    ((∀ d ∈ CurrentDaysForStreak "003".toList,
        d ∈ CurrentDaysForStreak (AddMissingDaysForStreak 6 [3, 5] "003".toList))
     ∧ AddMissingDaysForStreak 4 [3, 5]
         (AddMissingDaysForStreak 6 [3, 5] "003".toList) =
       AddMissingDaysForStreak 6 [3, 5] "003".toList
     ∧ AddMissingDaysForStreak 6 [3, 5] [] = "003|005".toList
     ∧ AddMissingDaysForStreak 6 [3, 5] "003|005".toList = "003|005".toList) :=
  ⟨by decide,
    addMissingDays_ratchet_idempotent 6 4 [3, 5] "003".toList (by decide)⟩

/-- C2 counterexample: with the configured threshold list [5, 3] and a
run length of 6, the thresholds are appended in configured-list order
("005|003"), not in ascending threshold order ("003|005"). -/
theorem addMissingDays_order_counterexample :
    AddMissingDaysForStreak 6 [5, 3] [] = "005|003".toList ∧
    AddMissingDaysForStreak 6 [5, 3] [] ≠ "003|005".toList := by
  decide

/-- C2 (amended): for positive configured thresholds, the new streak
string is the prior string with exactly the not-yet-recorded configured
thresholds that do not exceed the run length appended, in
configured-list order (hence ascending whenever the configured list is
ascending), each rendered by the zero-padded three-digit format and
joined by the pipe character. -/
theorem addMissingDays_append_characterization (max : Int) (days : List Int)
    (value : List Char) (hpos : ∀ d ∈ days, 1 ≤ d) :
    AddMissingDaysForStreak max days value =
      appendDaysLoop max
        (days.filter (fun d => decide (d ∉ CurrentDaysForStreak value))) value
    ∧ CurrentDaysForStreak (AddMissingDaysForStreak max days value) =
      CurrentDaysForStreak value ++
        ((days.filter
            (fun d => decide (d ∉ CurrentDaysForStreak value))).filter
          (fun d => decide (d ≤ max)))
    ∧ (value ≠ [] →
        AddMissingDaysForStreak max days value =
          value ++
            ((days.filter
                (fun d => decide (d ∉ CurrentDaysForStreak value))).filter
              (fun d => decide (d ≤ max))).flatMap
              (fun d => '|' :: goFormat3 d)) := by
  set M := days.filter
    (fun d => decide (d ∉ CurrentDaysForStreak value)) with hM
  have hfirst : AddMissingDaysForStreak max days value =
      appendDaysLoop max M value := by
    by_cases hmax : max < 1
    · have hno : ∀ d ∈ M, ¬ d ≤ max := by
        intro d hdM
        rw [hM, List.mem_filter] at hdM
        have := hpos d hdM.1
        omega
      rw [appendDaysLoop_no_append max M value hno]
      unfold AddMissingDaysForStreak
      rw [if_pos hmax]
    · rw [addMissing_eq max days value hmax, ← hM]
      split
      · rename_i hM0
        rw [hM0]
        rfl
      · rfl
  refine ⟨hfirst, ?_, ?_⟩
  · rw [hfirst, currentDays_appendDaysLoop]
  · intro hv
    rw [hfirst, appendDaysLoop_flatMap max M value hv]

/-- Witness for C2 (amended) at a concrete input: prior value "003",
thresholds [3, 5, 9], run length 6. -/
theorem addMissingDays_append_characterization_witness :
    (∀ d ∈ [3, 5, 9], (1 : Int) ≤ d) ∧
    (AddMissingDaysForStreak 6 [3, 5, 9] "003".toList =
      appendDaysLoop 6
        (List.filter (fun d => decide (d ∉ CurrentDaysForStreak "003".toList))
          [3, 5, 9]) "003".toList
    ∧ CurrentDaysForStreak (AddMissingDaysForStreak 6 [3, 5, 9] "003".toList) =
      CurrentDaysForStreak "003".toList ++
        (List.filter (fun d => decide (d ≤ 6))
          (List.filter (fun d => decide (d ∉ CurrentDaysForStreak "003".toList))
            [3, 5, 9]))
    ∧ ("003".toList ≠ [] →
        AddMissingDaysForStreak 6 [3, 5, 9] "003".toList =
          "003".toList ++
            ((List.filter (fun d => decide (d ≤ 6))
              (List.filter
                (fun d => decide (d ∉ CurrentDaysForStreak "003".toList))
                [3, 5, 9]))).flatMap (fun d => '|' :: goFormat3 d))) :=
  ⟨by decide,
    addMissingDays_append_characterization 6 [3, 5, 9] "003".toList (by decide)⟩

/-! Model of Go `time.Time` values and `time.Parse(time.RFC3339, s)`. -/

/-- A Go `time.Time` instant: seconds since the Unix epoch plus a
nanosecond part.  The parser below produces `0 ≤ nanos < 10^9`;
`goTimeAdd` may leave `nanos` unnormalised, which is harmless because all
comparisons go through `goTimeNanos`. -/
structure GoTime where
  secs : Int
  nanos : Int
  deriving DecidableEq

/-- Total nanoseconds since the Unix epoch. -/
def goTimeNanos (t : GoTime) : Int := t.secs * 1000000000 + t.nanos

/-- Go `t.Before(u)`. -/
def goTimeBefore (t u : GoTime) : Prop := goTimeNanos t < goTimeNanos u

instance (t u : GoTime) : Decidable (goTimeBefore t u) := by
  unfold goTimeBefore; infer_instance

/-- Go `t.After(u)`. -/
def goTimeAfter (t u : GoTime) : Prop := goTimeNanos u < goTimeNanos t

instance (t u : GoTime) : Decidable (goTimeAfter t u) := by
  unfold goTimeAfter; infer_instance

/-- Go `t.Add(d)` for a duration of `d` nanoseconds. -/
def goTimeAdd (t : GoTime) (d : Int) : GoTime := { secs := t.secs, nanos := t.nanos + d }

/-- Go `time.Hour` in nanoseconds. -/
def goHour : Int := 3600000000000

/-- The zero `time.Time` (January 1 of year 1, UTC) as seconds since the
Unix epoch. -/
def goZeroTime : GoTime := { secs := -62135596800, nanos := 0 }

/-- Days from the civil epoch 1970-01-01 for a Gregorian date
(Howard Hinnant's `days_from_civil` algorithm, as used by Go's
`time.Date` normalisation). -/
def daysFromCivil (y m d : Int) : Int :=
  let y2 := if m ≤ 2 then y - 1 else y
  let era := Int.fdiv y2 400
  let yoe := y2 - era * 400
  let mp := if m > 2 then m - 3 else m + 9
  let doy := (153 * mp + 2) / 5 + d - 1
  let doe := yoe * 365 + yoe / 4 - yoe / 100 + doy
  era * 146097 + doe - 719468

/-- Leap year test of the proleptic Gregorian calendar. -/
def isLeapYear (y : Int) : Bool :=
  (y % 4 = 0 && y % 100 ≠ 0) || y % 400 = 0

/-- Number of days in month `m` of year `y`. -/
def daysInMonth (y m : Int) : Int :=
  if m = 2 then (if isLeapYear y then 29 else 28)
  else if m = 4 ∨ m = 6 ∨ m = 9 ∨ m = 11 then 30
  else 31

/-- Read exactly two decimal digits. -/
def take2Digits : List Char → Option (Nat × List Char)
  | a :: b :: rest =>
    if isGoDigit a && isGoDigit b then
      some (10 * goDigitVal a + goDigitVal b, rest)
    else none
  | _ => none

/-- Read exactly four decimal digits. -/
def take4Digits : List Char → Option (Nat × List Char)
  | a :: b :: c :: d :: rest =>
    if isGoDigit a && isGoDigit b && isGoDigit c && isGoDigit d then
      some (1000 * goDigitVal a + 100 * goDigitVal b + 10 * goDigitVal c +
        goDigitVal d, rest)
    else none
  | _ => none

/-- Require the next character to be `c`. -/
def expectChar (c : Char) : List Char → Option (List Char)
  | x :: rest => if x = c then some rest else none
  | _ => none

/-- Optional fractional seconds: a decimal separator followed by one to
nine digits, scaled to nanoseconds.  Absent fraction parses as zero.
(Fractions longer than nine digits are not modelled.) -/
def takeFrac : List Char → Option (Int × List Char)
  | c :: rest =>
    if c = '.' ∨ c = ',' then
      let digits := rest.takeWhile isGoDigit
      let rest2 := rest.dropWhile isGoDigit
      if digits.length = 0 ∨ digits.length > 9 then none
      else some ((goDigitsVal digits : Int) * ((10 : Int) ^ (9 - digits.length)), rest2)
    else some (0, c :: rest)
  | [] => some (0, [])

/-- Time-zone offset in seconds: the whole remaining input must be `Z` or
a signed `hh:mm` offset. -/
def parseOffset : List Char → Option Int
  | ['Z'] => some 0
  | c :: rest =>
    if c = '+' ∨ c = '-' then
      match take2Digits rest with
      | none => none
      | some (hh, r1) =>
        match expectChar ':' r1 with
        | none => none
        | some r2 =>
          match take2Digits r2 with
          | none => none
          | some (mm, r3) =>
            if r3 = [] ∧ hh ≤ 23 ∧ mm ≤ 59 then
              some ((if c = '-' then -1 else 1) * ((hh : Int) * 3600 + mm * 60))
            else none
    else none
  | [] => none

/-- Go `time.Parse(time.RFC3339, s)`: full date-time with `T` separator,
optional fractional seconds, and `Z` or signed offset, with calendar
range validation. -/
def parseRFC3339 (s : List Char) : Option GoTime :=
  match take4Digits s with
  | none => none
  | some (y, s1) =>
  match expectChar '-' s1 with
  | none => none
  | some s2 =>
  match take2Digits s2 with
  | none => none
  | some (mo, s3) =>
  match expectChar '-' s3 with
  | none => none
  | some s4 =>
  match take2Digits s4 with
  | none => none
  | some (dy, s5) =>
  match expectChar 'T' s5 with
  | none => none
  | some s6 =>
  match take2Digits s6 with
  | none => none
  | some (hh, s7) =>
  match expectChar ':' s7 with
  | none => none
  | some s8 =>
  match take2Digits s8 with
  | none => none
  | some (mi, s9) =>
  match expectChar ':' s9 with
  | none => none
  | some s10 =>
  match take2Digits s10 with
  | none => none
  | some (ss, s11) =>
  match takeFrac s11 with
  | none => none
  | some (nanos, s12) =>
  match parseOffset s12 with
  | none => none
  | some offset =>
  if 1 ≤ mo && mo ≤ 12 && 1 ≤ dy && decide ((dy : Int) ≤ daysInMonth y mo) &&
      hh ≤ 23 && mi ≤ 59 && ss ≤ 59 then
    some { secs := daysFromCivil y mo dy * 86400 + hh * 3600 + mi * 60 + ss -
             offset,
           nanos := nanos }
  else none

example : (parseRFC3339 "2023-10-01T03:09:38.979Z".toList).map GoTime.secs =
    some 1696129778 := by decide
example : (parseRFC3339 "2023-10-01T03:09:38.979Z".toList).map GoTime.nanos =
    some 979000000 := by decide
example : (parseRFC3339 "2023-10-31T00:00:00.000Z".toList).map GoTime.secs =
    some 1698710400 := by decide
example : (parseRFC3339 "2024-02-29T12:00:00+05:30".toList).map GoTime.secs =
    some 1709188200 := by decide
example : parseRFC3339 "2023-02-29T12:00:00Z".toList = none := by decide
example : parseRFC3339 "not a timestamp".toList = none := by decide

/-! Model of the streak engine (extensions source file). -/

/-- Go `EpochDays.FirstDay`: smallest day key, or 0 when there are no
entries.  The day-key multiset of `EpochDays.Entries` is modelled as a
list (one key per entry; duplicates are harmless since only membership,
minimum and maximum are consumed). -/
def firstDay (days : List Int) : Int := (days.min?).getD 0

/-- Go `EpochDays.LastDay`: largest day key, or 0 when there are no
entries. -/
def lastDay (days : List Int) : Int := (days.max?).getD 0

/-- Go `EpochDays.MaxConsecutiveDays`: scan every day from `FirstDay` to
`LastDay`, counting the longest run of populated days. -/
def maxConsecutiveDays (days : List Int) : Int :=
  let first := firstDay days
  let last := lastDay days
  ((List.range (last - first + 1).toNat).foldl
    (fun st k =>
      let cur := if first + (k : Int) ∈ days then st.2 + 1 else 0
      (if cur > st.1 then cur else st.1, cur))
    ((0 : Int), (0 : Int))).1

/-- Go `EpochDaySeconds`. -/
def EpochDaySeconds : Int := 86400

/-- Go `CalcDaysForStreakFromEntries`: bucket each entry timestamp into a
Unix epoch day (`t.Unix() / 86400`, truncating division); unparseable
timestamps bucket to day 0. -/
def calcDaysForStreakFromEntries (timestamps : List (List Char)) : List Int :=
  timestamps.map
    (fun ts =>
      match parseRFC3339 ts with
      | some t => Int.tdiv t.secs EpochDaySeconds
      | none => 0)

/-- Activity streak configuration (`Config.Streaks.Activity`). -/
structure StreaksActivityConfig where
  days : List Int
  fromStr : String
  toStr : String
  filter : List String
  mapping : String

/-- Donation streak configuration (`Config.Streaks.Donation`). -/
structure StreaksDonationConfig where
  days : List Int
  mapping : String

/-- `FundraiserExtensionsConfig` (streak and split-total settings). -/
structure FundraiserExtensionsConfig where
  activity : StreaksActivityConfig
  donation : StreaksDonationConfig
  splitFrom : String
  splitMappings : List String

/-- An exercise-log entry (sync/modifiers.go).  `Distance` is a Go
`float64`, modelled as a rational. -/
structure ExerciseLogEntry where
  activity : String
  date : String
  distance : Rat

/-- Go `ExerciseLogEntry.TimestampForStreak`. -/
def ExerciseLogEntry.timestampForStreak (e : ExerciseLogEntry) : String := e.date

/-- The `From` window check inside `ExerciseLogEntry.IncludeForStreak`:
entries before the configured start (or with unparseable bounds or
timestamps) are excluded. -/
def fromWindowCheck (cfg : FundraiserExtensionsConfig) (e : ExerciseLogEntry) :
    Bool :=
  if cfg.activity.fromStr = "" then true
  else
    match parseRFC3339 cfg.activity.fromStr.toList with
    | none => false
    | some t1 =>
      match parseRFC3339 e.timestampForStreak.toList with
      | none => false
      | some t2 => !(decide (goTimeBefore t2 t1))

/-- The `To` window check inside `ExerciseLogEntry.IncludeForStreak`. -/
def toWindowCheck (cfg : FundraiserExtensionsConfig) (e : ExerciseLogEntry) :
    Bool :=
  if cfg.activity.toStr = "" then true
  else
    match parseRFC3339 cfg.activity.toStr.toList with
    | none => false
    | some t1 =>
      match parseRFC3339 e.timestampForStreak.toList with
      | none => false
      | some t2 => !(decide (goTimeAfter t2 t1))

/-- Go `ExerciseLogEntry.IncludeForStreak`: exclude entries with distance
below 1, activity types outside a non-empty allow-list, and entries
outside the configured date window. -/
def ExerciseLogEntry.includeForStreak (e : ExerciseLogEntry)
    (cfg : FundraiserExtensionsConfig) : Bool :=
  if e.distance < 1 then false
  else if decide (cfg.activity.filter ≠ []) &&
      !(cfg.activity.filter.contains e.activity) then false
  else fromWindowCheck cfg e && toWindowCheck cfg e

/-- A donation (sync/modifiers.go).  `Amount` is a Go `float64`, modelled
as a rational. -/
structure Donation where
  userUuid : String
  createdAt : String
  date : String
  dtype : String
  amount : Rat

/-- Go `Donation.IncludeForStreak`: included exactly when the amount is
positive; the configuration argument is ignored by the source. -/
def Donation.includeForStreak (d : Donation)
    (cfg : FundraiserExtensionsConfig) : Bool :=
  decide (0 < d.amount)

/-- Go `Donation.TimestampForStreak`: offline donations use `Date`,
others `CreatedAt`. -/
def Donation.timestampForStreak (d : Donation) : String :=
  if d.dtype = "OFFLINE" then d.date else d.createdAt

/-- The fundraising page source, exposing the typed dotted-path lookups
of `Source` (string and int forms are all the extensions use). -/
structure FundraisingPageModel where
  stringFor : String → String × Bool
  intFor : String → Int × Bool

/-- Go `FundraiserExtensions.MaxConfiguredDaysForActivityStreak`. -/
def maxConfiguredDaysForActivityStreak (cfg : FundraiserExtensionsConfig) : Int :=
  if cfg.activity.days = [] then 0 else (cfg.activity.days.max?).getD 0

/-- Go `FundraiserExtensions.MaxCurrentDaysForActivityStreak`. -/
def maxCurrentDaysForActivityStreak (cfg : FundraiserExtensionsConfig)
    (page : FundraisingPageModel) : Int :=
  if cfg.activity.days = [] then 0
  else
    let currentValue := (page.stringFor cfg.activity.mapping).1.toList
    let ds := CurrentDaysForStreak currentValue
    if ds = [] then 0 else (ds.max?).getD 0

/-- The activity-streak section of `ApplyFundraiserExtensions`: returns
the new value written for the activity mapping, or `none` when no patch
is emitted for it. -/
def applyActivityStreak (cfg : FundraiserExtensionsConfig)
    (page : FundraisingPageModel) (logs : List ExerciseLogEntry) :
    Option (List Char) :=
  let configuredMax := maxConfiguredDaysForActivityStreak cfg
  let currentMax := maxCurrentDaysForActivityStreak cfg page
  if currentMax < configuredMax then
    let entries := (logs.filter
      (fun el => el.includeForStreak cfg)).map
        (fun el => el.timestampForStreak.toList)
    let dayKeys := calcDaysForStreakFromEntries entries
    let maxDays := maxConsecutiveDays dayKeys
    if currentMax < maxDays then
      let currentValue := (page.stringFor cfg.activity.mapping).1.toList
      let newValue := AddMissingDaysForStreak maxDays cfg.activity.days
        currentValue
      if currentValue ≠ newValue then some newValue else none
    else none
  else none

/-! The exercise-log fixture from the source tests
(`TestFundraiserExtensions_AllStreaks`). -/

/-- Shorthand for building a fixture exercise-log entry. -/
def mkLog (a : String) (d : String) (dist : Rat) : ExerciseLogEntry :=
  { activity := a, date := d, distance := dist }

/-- The twenty exercise-log entries of the source test fixture: SWIMMING
on days 1-9 and 11-19 of October 2023, OTHER on days 10 and 20. -/
def fixtureLogs : List ExerciseLogEntry :=
  [ mkLog "SWIMMING" "2023-10-01T03:09:38.979Z" 100,
    mkLog "SWIMMING" "2023-10-02T03:09:38.979Z" 200,
    mkLog "SWIMMING" "2023-10-03T03:09:38.979Z" 300,
    mkLog "SWIMMING" "2023-10-04T03:09:38.979Z" 400,
    mkLog "SWIMMING" "2023-10-05T03:09:38.979Z" 500,
    mkLog "SWIMMING" "2023-10-06T03:09:38.979Z" 600,
    mkLog "SWIMMING" "2023-10-07T03:09:38.979Z" 700,
    mkLog "SWIMMING" "2023-10-08T03:09:38.979Z" 800,
    mkLog "SWIMMING" "2023-10-09T03:09:38.979Z" 900,
    mkLog "OTHER" "2023-10-10T03:09:38.979Z" 1000,
    mkLog "SWIMMING" "2023-10-11T03:09:38.979Z" 1100,
    mkLog "SWIMMING" "2023-10-12T03:09:38.979Z" 1200,
    mkLog "SWIMMING" "2023-10-13T03:09:38.979Z" 1300,
    mkLog "SWIMMING" "2023-10-14T03:09:38.979Z" 1400,
    mkLog "SWIMMING" "2023-10-15T03:09:38.979Z" 1500,
    mkLog "SWIMMING" "2023-10-16T03:09:38.979Z" 1600,
    mkLog "SWIMMING" "2023-10-17T03:09:38.979Z" 1700,
    mkLog "SWIMMING" "2023-10-18T03:09:38.979Z" 1800,
    mkLog "SWIMMING" "2023-10-19T03:09:38.979Z" 1900,
    mkLog "OTHER" "2023-10-20T03:09:38.979Z" 2000 ]

/-- The activity-streak configuration of the source test fixture:
thresholds {10,15,20}, October 2023 window, allow-list
["OTHER", "SWIMMING"]. -/
def fixtureConfig : FundraiserExtensionsConfig :=
  { activity :=
      { days := [10, 15, 20],
        fromStr := "2023-10-01T00:00:00.000Z",
        toStr := "2023-10-31T00:00:00.000Z",
        filter := ["OTHER", "SWIMMING"],
        mapping := "public.activityStreaksAwarded" },
    donation := { days := [3, 5], mapping := "public.donationStreaksAwarded" },
    splitFrom := "",
    splitMappings := [] }

/-- The same configuration with an allow-list excluding "OTHER"
(the scenario the claim describes, where the day-10 and day-20 entries
really are excluded by the filter). -/
def fixtureConfigNoOther : FundraiserExtensionsConfig :=
  { activity :=
      { days := [10, 15, 20],
        fromStr := "2023-10-01T00:00:00.000Z",
        toStr := "2023-10-31T00:00:00.000Z",
        filter := ["SWIMMING"],
        mapping := "public.activityStreaksAwarded" },
    donation := { days := [3, 5], mapping := "public.donationStreaksAwarded" },
    splitFrom := "",
    splitMappings := [] }

/-- A fundraising page with no stored data: every path is absent. -/
def emptyPage : FundraisingPageModel :=
  { stringFor := fun _ => ("", false), intFor := fun _ => (0, false) }

example : applyActivityStreak fixtureConfig emptyPage fixtureLogs =
    some "010|015|020".toList := by decide

/-- C9 counterexample: in the scenario the claim describes — the day-10
and day-20 entries really excluded by the activity filter, breaking the
run — the longest run is 9 days, no threshold of {10,15,20} is reached,
and no streak value is produced at all, contradicting the claimed
"010|015|020". -/
theorem activityStreak_fixture_counterexample :
    ExerciseLogEntry.includeForStreak
      (mkLog "OTHER" "2023-10-10T03:09:38.979Z" 1000) fixtureConfigNoOther =
      false ∧
    ExerciseLogEntry.includeForStreak
      (mkLog "OTHER" "2023-10-20T03:09:38.979Z" 2000) fixtureConfigNoOther =
      false ∧
    maxConsecutiveDays (calcDaysForStreakFromEntries
      ((fixtureLogs.filter
        (fun el => el.includeForStreak fixtureConfigNoOther)).map
          (fun el => el.timestampForStreak.toList))) = 9 ∧
    applyActivityStreak fixtureConfigNoOther emptyPage fixtureLogs = none ∧
    applyActivityStreak fixtureConfigNoOther emptyPage fixtureLogs ≠
      some "010|015|020".toList := by
  decide

/-- C9 (amended): in the source test fixture the day-10 and day-20
entries have activity type OTHER, which IS in the configured allow-list
["OTHER", "SWIMMING"], so they are included rather than excluded; the
twenty entries form one 20-day consecutive run, and with thresholds
{10,15,20}, the October 2023 date window and an empty prior streak state
the computation emits the encoded streak string "010|015|020". -/
theorem activityStreak_fixture :
    ExerciseLogEntry.includeForStreak
      (mkLog "OTHER" "2023-10-10T03:09:38.979Z" 1000) fixtureConfig = true ∧
    ExerciseLogEntry.includeForStreak
      (mkLog "OTHER" "2023-10-20T03:09:38.979Z" 2000) fixtureConfig = true ∧
    maxConsecutiveDays (calcDaysForStreakFromEntries
      ((fixtureLogs.filter
        (fun el => el.includeForStreak fixtureConfig)).map
          (fun el => el.timestampForStreak.toList))) = 20 ∧
    applyActivityStreak fixtureConfig emptyPage fixtureLogs =
      some "010|015|020".toList := by
  decide

/-- C10: an exercise-log entry with distance below 1 is always excluded
from the activity streak, whatever the configuration (in particular even
when its activity is in the allow-list and its date inside the window,
as the concrete conjuncts show); a donation is included in the donation
streak exactly when its amount is positive, whatever the configuration. -/
theorem includeForStreak_rules :
    (∀ (cfg : FundraiserExtensionsConfig) (e : ExerciseLogEntry),
      e.distance < 1 → e.includeForStreak cfg = false) ∧
    (∀ (cfg : FundraiserExtensionsConfig) (d : Donation),
      d.includeForStreak cfg = decide (0 < d.amount)) ∧
    ExerciseLogEntry.includeForStreak
      (mkLog "SWIMMING" "2023-10-05T03:09:38.979Z" 1) fixtureConfig = true ∧
    ExerciseLogEntry.includeForStreak
      (mkLog "SWIMMING" "2023-10-05T03:09:38.979Z" (Rat.divInt 1 2))
      fixtureConfig = false ∧
    Donation.includeForStreak
      { userUuid := "u", createdAt := "2019-01-01T00:00:00Z", date := "",
        dtype := "ONLINE", amount := 5 } fixtureConfig = true := by
  refine ⟨?_, ?_, by decide, by decide, by decide⟩
  · intro cfg e h
    unfold ExerciseLogEntry.includeForStreak
    rw [if_pos h]
  · intro cfg d
    rfl

/-- Witness for C10 at a concrete input: a SWIMMING entry inside the
window with distance 0 is excluded. -/
theorem includeForStreak_rules_witness :
    (mkLog "SWIMMING" "2023-10-05T03:09:38.979Z" 0).distance < 1 ∧
    ExerciseLogEntry.includeForStreak
      (mkLog "SWIMMING" "2023-10-05T03:09:38.979Z" 0) fixtureConfig = false :=
  ⟨by decide,
    includeForStreak_rules.1 fixtureConfig
      (mkLog "SWIMMING" "2023-10-05T03:09:38.979Z" 0) (by decide)⟩

/-! Model of the split-exercise-totals section of
`ApplyFundraiserExtensions`. -/

/-- A labelled campaign page default (`CampaignDefault`). -/
structure CampaignDefault where
  label : String
  value : String

/-- The campaign data the extensions use (`FundraisingCampaign`
restricted to its page defaults). -/
structure FundraisingCampaignModel where
  pageDefaults : List CampaignDefault

/-- The `from` timestamp lookup loop of `ApplyFundraiserExtensions`:
scan the campaign page defaults; every label match re-parses the value
(errors propagate), later matches overwrite earlier ones, and with no
match the timestamp stays the Go zero time. -/
def resolveFromTimestamp (defaults : List CampaignDefault) (label : String) :
    Except String GoTime :=
  defaults.foldl
    (fun acc d =>
      match acc with
      | Except.error e => Except.error e
      | Except.ok ts =>
        if label = d.label then
          match parseRFC3339 d.value.toList with
          | some t => Except.ok t
          | none => Except.error "cannot parse from timestamp"
        else Except.ok ts)
    (Except.ok goZeroTime)

/-- Go `FundraiserExtensions.HasSplitExerciseTotals`. -/
def hasSplitExerciseTotals (cfg : FundraiserExtensionsConfig) : Bool :=
  decide (cfg.splitFrom ≠ "") && decide (cfg.splitMappings.length = 2)

/-- The split-exercise-totals section of `ApplyFundraiserExtensions`:
returns the list of (mapping, value) patches it emits (the rendering of
the `sjson.Set` calls), or the error it returns. -/
def applySplitExerciseTotals (cfg : FundraiserExtensionsConfig)
    (campaign : FundraisingCampaignModel) (page : FundraisingPageModel)
    (now : GoTime) : Except String (List (String × Int)) :=
  if hasSplitExerciseTotals cfg then
    match resolveFromTimestamp campaign.pageDefaults cfg.splitFrom with
    | Except.error e => Except.error e
    | Except.ok fromTimestamp =>
      match cfg.splitMappings with
      | [beforeMapping, fromMapping] =>
        let exerciseTotal := (page.intFor "exerciseTotal").1
        let beforeCur := (page.intFor beforeMapping).1
        let fromCur := (page.intFor fromMapping).1
        if goTimeBefore now fromTimestamp then
          if exerciseTotal ≠ beforeCur then
            if exerciseTotal > beforeCur ∨
                goTimeAfter (goTimeAdd now (24 * goHour)) fromTimestamp ∨
                goTimeBefore (goTimeAdd now (-(24 * goHour))) fromTimestamp then
              Except.ok [(beforeMapping, exerciseTotal)]
            else Except.ok []
          else Except.ok []
        else
          if exerciseTotal ≠ fromCur then
            Except.ok [(fromMapping, exerciseTotal)]
          else Except.ok []
      | _ => Except.ok []
  else Except.ok []

theorem goTimeNanos_add (t : GoTime) (d : Int) :
    goTimeNanos (goTimeAdd t d) = goTimeNanos t + d := by
  unfold goTimeNanos goTimeAdd
  ring

instance {ε α : Type} [DecidableEq ε] [DecidableEq α] : DecidableEq (Except ε α)
  | Except.error x, Except.error y =>
    if h : x = y then isTrue (by rw [h])
    else isFalse (fun hc => h (by injection hc))
  | Except.error _, Except.ok _ => isFalse (fun hc => Except.noConfusion hc)
  | Except.ok _, Except.error _ => isFalse (fun hc => Except.noConfusion hc)
  | Except.ok x, Except.ok y =>
    if h : x = y then isTrue (by rw [h])
    else isFalse (fun hc => h (by injection hc))

/-- The split-totals configuration used in the counterexample: the same
labels and mappings as the source tests. -/
def splitConfig : FundraiserExtensionsConfig :=
  { activity :=
      { days := [], fromStr := "", toStr := "", filter := [], mapping := "" },
    donation := { days := [], mapping := "" },
    splitFrom := "Challenge Start",
    splitMappings :=
      ["public.challenge_training_total", "public.challenge_total"] }

/-- A campaign whose challenge starts at 2023-10-03T00:00:00Z. -/
def splitCampaign : FundraisingCampaignModel :=
  { pageDefaults :=
      [{ label := "Challenge Start", value := "2023-10-03T00:00:00Z" }] }

/-- A page with running total 3210 and recorded before-total 4321. -/
def splitPage : FundraisingPageModel :=
  { stringFor := fun _ => ("", false),
    intFor := fun p =>
      if p = "exerciseTotal" then (3210, true)
      else if p = "public.challenge_training_total" then (4321, true)
      else (0, false) }

/-- The current instant 2023-10-01T00:00:00Z, 48 hours before the
challenge start. -/
def splitNow : GoTime := { secs := 1696118400, nanos := 0 }

/-- C5 counterexample: 48 hours (more than 24) before the configured
start, with the new running total 3210 smaller than the recorded
before-total 4321, the code DOES emit a patch overwriting the before
field — the guard's third disjunct (now − 24h before start) always holds
when now is before the start. -/
theorem splitTotals_counterexample :
    goTimeNanos splitNow + 24 * goHour <
      goTimeNanos { secs := 1696291200, nanos := 0 } ∧
    resolveFromTimestamp splitCampaign.pageDefaults "Challenge Start" =
      Except.ok { secs := 1696291200, nanos := 0 } ∧
    (3210 : Int) < 4321 ∧
    applySplitExerciseTotals splitConfig splitCampaign splitPage splitNow =
      Except.ok [("public.challenge_training_total", 3210)] ∧
    applySplitExerciseTotals splitConfig splitCampaign splitPage splitNow ≠
      Except.ok [] := by
  decide

/-- C5 (amended): whenever the current time is before the configured
start timestamp and the running total differs from the recorded before
value, the before field IS patched with the new total (the 24-hour
defensive guard never blocks, since its disjunct now − 24h < start holds
whenever now < start); whenever the current time is at or after the
start, the total is written to the after field exactly when it differs
from the stored after value, and the before field is never touched. -/
theorem splitTotals_characterization (cfg : FundraiserExtensionsConfig)
    (campaign : FundraisingCampaignModel) (page : FundraisingPageModel)
    (now ts : GoTime) (bm fm : String)
    (hmap : cfg.splitMappings = [bm, fm]) (hfrom : cfg.splitFrom ≠ "")
    (hres : resolveFromTimestamp campaign.pageDefaults cfg.splitFrom =
      Except.ok ts) :
    applySplitExerciseTotals cfg campaign page now =
      (if goTimeBefore now ts then
        Except.ok
          (if (page.intFor "exerciseTotal").1 ≠ (page.intFor bm).1 then
            [(bm, (page.intFor "exerciseTotal").1)]
          else [])
      else
        Except.ok
          (if (page.intFor "exerciseTotal").1 ≠ (page.intFor fm).1 then
            [(fm, (page.intFor "exerciseTotal").1)]
          else [])) := by
  have hsplit : hasSplitExerciseTotals cfg = true := by
    unfold hasSplitExerciseTotals
    rw [hmap]
    simp [hfrom]
  unfold applySplitExerciseTotals
  rw [hsplit, if_pos rfl, hres, hmap]
  dsimp only
  by_cases hb : goTimeBefore now ts
  · rw [if_pos hb, if_pos hb]
    by_cases heq : (page.intFor "exerciseTotal").1 = (page.intFor bm).1
    · simp [heq]
    · have hguard : goTimeBefore (goTimeAdd now (-(24 * goHour))) ts := by
        unfold goTimeBefore at hb ⊢
        rw [goTimeNanos_add]
        have h24 : (0 : Int) < 24 * goHour := by decide
        omega
      rw [if_pos heq, if_pos (Or.inr (Or.inr hguard)), if_pos heq]
  · rw [if_neg hb, if_neg hb]
    split <;> rfl

/-- Witness for C5 (amended) at the counterexample inputs. -/
theorem splitTotals_characterization_witness :
    splitConfig.splitMappings =
      ["public.challenge_training_total", "public.challenge_total"] ∧
    splitConfig.splitFrom ≠ "" ∧
    resolveFromTimestamp splitCampaign.pageDefaults splitConfig.splitFrom =
      Except.ok { secs := 1696291200, nanos := 0 } ∧
    applySplitExerciseTotals splitConfig splitCampaign splitPage splitNow =
      (if goTimeBefore splitNow { secs := 1696291200, nanos := 0 } then
        Except.ok
          (if (splitPage.intFor "exerciseTotal").1 ≠
              (splitPage.intFor "public.challenge_training_total").1 then
            [("public.challenge_training_total",
              (splitPage.intFor "exerciseTotal").1)]
          else [])
      else
        Except.ok
          (if (splitPage.intFor "exerciseTotal").1 ≠
              (splitPage.intFor "public.challenge_total").1 then
            [("public.challenge_total", (splitPage.intFor "exerciseTotal").1)]
          else [])) :=
  ⟨rfl, by decide, by decide,
    splitTotals_characterization splitConfig splitCampaign splitPage splitNow
      { secs := 1696291200, nanos := 0 } "public.challenge_training_total"
      "public.challenge_total" rfl (by decide) (by decide)⟩

/-! Model of the field-mapping engine (sync/field_mapper.go). -/

/-- A value stored in a target record's field map
(`map[string]interface{}` entries as produced by `mapFields`). -/
inductive OrttoValue where
  | str (s : String)
  | int (i : Int)
  | bool (b : Bool)
  | null
  | obj (components : List (String × String))
  deriving DecidableEq

/-- A target record's flat field map (the `FieldMapper` capability):
`none` means the key is absent. -/
def Fields : Type := String → Option OrttoValue

/-- `SetField`. -/
def setField (m : Fields) (k : String) (v : OrttoValue) : Fields :=
  fun q => if q = k then some v else m q

/-- `DeleteField`. -/
def deleteField (m : Fields) (k : String) : Fields :=
  fun q => if q = k then none else m q

/-- The source document with its typed dotted-path accessors
(`StringForPath`, `IntForPath`, `BoolForPath`), each returning the value
together with the exists flag. -/
structure SourceM where
  stringFor : String → String × Bool
  intFor : String → Int × Bool
  boolFor : String → Bool × Bool

/-- `FieldMappings`: the five scalar collections, the whole-number
collection and the two nested collections.  Go maps are rendered as
association lists. -/
structure FieldMappings where
  strings : List (String × String)
  texts : List (String × String)
  decimals : List (String × String)
  booleans : List (String × String)
  timestamps : List (String × String)
  phones : List (String × List (String × String))
  geos : List (String × List (String × String))
  integers : List (String × String)

/-- The value `mapFields` writes for a string-typed scalar pair: the
resolved string, or the explicit null marker when the path is absent. -/
def strWrite (src : SourceM) (path : String) : OrttoValue :=
  if (src.stringFor path).2 then OrttoValue.str (src.stringFor path).1
  else OrttoValue.null

/-- The value written for an int-typed scalar pair. -/
def intWrite (src : SourceM) (path : String) : OrttoValue :=
  if (src.intFor path).2 then OrttoValue.int (src.intFor path).1
  else OrttoValue.null

/-- The value written for a boolean scalar pair. -/
def boolWrite (src : SourceM) (path : String) : OrttoValue :=
  if (src.boolFor path).2 then OrttoValue.bool (src.boolFor path).1
  else OrttoValue.null

/-- The value written for a nested (phone or geo) pair: resolve every
sub-component to a string (discarding the exists flag); if every
component resolved to the empty string, the null marker, else the
composite object. -/
def nestedWrite (src : SourceM) (sub : List (String × String)) : OrttoValue :=
  let obj := sub.map (fun cp => (cp.1, (src.stringFor cp.2).1))
  if obj.all (fun c => decide (c.2 = "")) then OrttoValue.null
  else OrttoValue.obj obj

/-- The sequence of `SetField` calls `mapFields` performs, in source
order: Strings, Texts, Decimals, Booleans, Timestamps, Phones, Geos,
Integers. -/
def writesFor (m : FieldMappings) (src : SourceM) :
    List (String × OrttoValue) :=
  m.strings.map (fun fp => (fp.1, strWrite src fp.2)) ++
  m.texts.map (fun fp => (fp.1, strWrite src fp.2)) ++
  m.decimals.map (fun fp => (fp.1, intWrite src fp.2)) ++
  m.booleans.map (fun fp => (fp.1, boolWrite src fp.2)) ++
  m.timestamps.map (fun fp => (fp.1, strWrite src fp.2)) ++
  m.phones.map (fun fp => (fp.1, nestedWrite src fp.2)) ++
  m.geos.map (fun fp => (fp.1, nestedWrite src fp.2)) ++
  m.integers.map (fun fp => (fp.1, intWrite src fp.2))

/-- `mapFields` (sync/field_mapper.go): perform every write in order. -/
def mapFields (m : FieldMappings) (src : SourceM) (container : Fields) :
    Fields :=
  (writesFor m src).foldl (fun c kv => setField c kv.1 kv.2) container

/-- All target field names of a mapping table, in write order. -/
def allTargetFields (m : FieldMappings) : List String :=
  m.strings.map Prod.fst ++ m.texts.map Prod.fst ++ m.decimals.map Prod.fst ++
  m.booleans.map Prod.fst ++ m.timestamps.map Prod.fst ++
  m.phones.map Prod.fst ++ m.geos.map Prod.fst ++ m.integers.map Prod.fst

/-- The six scalar kinds and their collections/typed write values. -/
inductive ScalarKind where
  | strK | txtK | decK | bolK | tmeK | intK
  deriving DecidableEq

/-- The collection of a scalar kind. -/
def scalarCollection (m : FieldMappings) : ScalarKind → List (String × String)
  | .strK => m.strings
  | .txtK => m.texts
  | .decK => m.decimals
  | .bolK => m.booleans
  | .tmeK => m.timestamps
  | .intK => m.integers

/-- The value written for a scalar kind and path. -/
def scalarExpected (src : SourceM) : ScalarKind → String → OrttoValue
  | .strK, path => strWrite src path
  | .txtK, path => strWrite src path
  | .decK, path => intWrite src path
  | .bolK, path => boolWrite src path
  | .tmeK, path => strWrite src path
  | .intK, path => intWrite src path

theorem writesFor_map_fst (m : FieldMappings) (src : SourceM) :
    (writesFor m src).map Prod.fst = allTargetFields m := by
  simp only [writesFor, allTargetFields, List.map_append, List.map_map]
  rfl

theorem writesFor_mem_scalar (m : FieldMappings) (src : SourceM)
    (kind : ScalarKind) (field path : String)
    (hmem : (field, path) ∈ scalarCollection m kind) :
    (field, scalarExpected src kind path) ∈ writesFor m src := by
  cases kind <;>
    simp only [scalarCollection, scalarExpected] at hmem ⊢ <;>
    simp only [writesFor, List.mem_append, List.mem_map]
  · exact Or.inl (Or.inl (Or.inl (Or.inl (Or.inl (Or.inl (Or.inl
      ⟨(field, path), hmem, rfl⟩))))))
  · exact Or.inl (Or.inl (Or.inl (Or.inl (Or.inl (Or.inl (Or.inr
      ⟨(field, path), hmem, rfl⟩))))))
  · exact Or.inl (Or.inl (Or.inl (Or.inl (Or.inl (Or.inr
      ⟨(field, path), hmem, rfl⟩)))))
  · exact Or.inl (Or.inl (Or.inl (Or.inl (Or.inr
      ⟨(field, path), hmem, rfl⟩))))
  · exact Or.inl (Or.inl (Or.inl (Or.inr ⟨(field, path), hmem, rfl⟩)))
  · exact Or.inr ⟨(field, path), hmem, rfl⟩

theorem writesFor_mem_phone (m : FieldMappings) (src : SourceM)
    (field : String) (sub : List (String × String))
    (hmem : (field, sub) ∈ m.phones) :
    (field, nestedWrite src sub) ∈ writesFor m src := by
  simp only [writesFor, List.mem_append, List.mem_map]
  exact Or.inl (Or.inl (Or.inr ⟨(field, sub), hmem, rfl⟩))

theorem writesFor_mem_geo (m : FieldMappings) (src : SourceM)
    (field : String) (sub : List (String × String))
    (hmem : (field, sub) ∈ m.geos) :
    (field, nestedWrite src sub) ∈ writesFor m src := by
  simp only [writesFor, List.mem_append, List.mem_map]
  exact Or.inl (Or.inr ⟨(field, sub), hmem, rfl⟩)

theorem foldl_setField_apply :
    ∀ (ws : List (String × OrttoValue)) (c : Fields) (k : String),
      (ws.foldl (fun c2 kv => setField c2 kv.1 kv.2) c) k =
        ws.foldl (fun acc kv => if kv.1 = k then some kv.2 else acc) (c k) := by
  intro ws
  induction ws with
  | nil => intro c k; rfl
  | cons kv ws ih =>
    intro c k
    rw [List.foldl_cons, List.foldl_cons, ih]
    by_cases h : kv.1 = k
    · have hset : setField c kv.1 kv.2 k = some kv.2 := by
        unfold setField
        rw [if_pos h.symm]
      rw [hset, if_pos h]
    · have hset : setField c kv.1 kv.2 k = c k := by
        unfold setField
        rw [if_neg (fun hk => h hk.symm)]
      rw [hset, if_neg h]

theorem foldl_lastWrite_of_not_mem :
    ∀ (ws : List (String × OrttoValue)) (init : Option OrttoValue) (k : String),
      k ∉ ws.map Prod.fst →
      ws.foldl (fun acc kv => if kv.1 = k then some kv.2 else acc) init = init := by
  intro ws
  induction ws with
  | nil => intro init k _; rfl
  | cons kv ws ih =>
    intro init k hk
    rw [List.map_cons] at hk
    rw [List.foldl_cons,
      if_neg (fun h => hk (by rw [← h]; exact List.mem_cons_self _ _))]
    exact ih init k (fun h => hk (List.mem_cons_of_mem _ h))

theorem foldl_lastWrite_unique :
    ∀ (ws : List (String × OrttoValue)) (init : Option OrttoValue)
      (k : String) (v : OrttoValue),
      (k, v) ∈ ws → (ws.map Prod.fst).count k = 1 →
      ws.foldl (fun acc kv => if kv.1 = k then some kv.2 else acc) init =
        some v := by
  intro ws
  induction ws with
  | nil => intro init k v hmem _; simp at hmem
  | cons kv ws ih =>
    intro init k v hmem hcount
    rw [List.map_cons, List.count_cons] at hcount
    rcases List.mem_cons.mp hmem with heq | hmem2
    · have hk : kv.1 = k := by rw [← heq]
      simp only [hk, beq_self_eq_true, if_true] at hcount
      have hnot : k ∉ ws.map Prod.fst := by
        intro hm
        have := List.count_pos_iff.mpr hm
        omega
      rw [List.foldl_cons, if_pos hk, foldl_lastWrite_of_not_mem ws _ k hnot,
        ← heq]
    · have hpos : 0 < (ws.map Prod.fst).count k :=
        List.count_pos_iff.mpr (List.mem_map.mpr ⟨(k, v), hmem2, rfl⟩)
      have hk : kv.1 ≠ k := by
        intro h
        simp only [h, beq_self_eq_true, if_true] at hcount
        omega
      rw [List.foldl_cons, if_neg hk]
      refine ih init k v hmem2 ?_
      have hbeq : (kv.1 == k) = false := beq_eq_false_iff_ne.mpr hk
      rw [hbeq] at hcount
      simpa using hcount

theorem mapFields_apply (m : FieldMappings) (src : SourceM) (c : Fields)
    (k : String) (v : OrttoValue) (hmem : (k, v) ∈ writesFor m src)
    (hcount : (allTargetFields m).count k = 1) :
    mapFields m src c k = some v := by
  unfold mapFields
  rw [foldl_setField_apply]
  exact foldl_lastWrite_unique (writesFor m src) (c k) k v hmem
    (by rw [writesFor_map_fst]; exact hcount)

theorem foldl_lastWrite_isSome :
    ∀ (ws : List (String × OrttoValue)) (init : Option OrttoValue)
      (k : String), k ∈ ws.map Prod.fst →
      (ws.foldl (fun acc kv => if kv.1 = k then some kv.2 else acc)
        init).isSome = true := by
  intro ws
  induction ws with
  | nil => intro init k hk; simp at hk
  | cons kv ws ih =>
    intro init k hk
    rw [List.foldl_cons]
    by_cases hmem : k ∈ ws.map Prod.fst
    · exact ih _ k hmem
    · have hkv : kv.1 = k := by
        rw [List.map_cons] at hk
        rcases List.mem_cons.mp hk with h | h
        · exact h.symm
        · exact absurd h hmem
      rw [if_pos hkv, foldl_lastWrite_of_not_mem ws _ k hmem]
      rfl

/-- C3: for every (targetField, path) pair in any of the six scalar
collections, the mapped record always contains the target field, and
(under the data-model invariant that a target field name appears only
once across the table) its value is the typed resolution of the path:
the resolved value when the path exists, the explicit null marker when
the path is missing or null — never simply absent. -/
theorem mapFields_scalar_total (m : FieldMappings) (src : SourceM)
    (c : Fields) (kind : ScalarKind) (field path : String)
    (hmem : (field, path) ∈ scalarCollection m kind) :
    (∃ v, mapFields m src c field = some v) ∧
    ((allTargetFields m).count field = 1 →
      mapFields m src c field = some (scalarExpected src kind path)) := by
  constructor
  · have hw := writesFor_mem_scalar m src kind field path hmem
    have hfst : field ∈ (writesFor m src).map Prod.fst :=
      List.mem_map.mpr ⟨_, hw, rfl⟩
    unfold mapFields
    rw [foldl_setField_apply]
    exact Option.isSome_iff_exists.mp
      (foldl_lastWrite_isSome (writesFor m src) (c field) field hfst)
  · intro hcount
    exact mapFields_apply m src c field _
      (writesFor_mem_scalar m src kind field path hmem) hcount

/-- A one-entry mapping table used for the witnesses. -/
def sampleMappings : FieldMappings :=
  { strings := [("f1", "p1")], texts := [], decimals := [], booleans := [],
    timestamps := [], phones := [("ph", [("number", "p2")])], geos := [],
    integers := [] }

/-- A source resolving only "p1". -/
def sampleSource : SourceM :=
  { stringFor := fun p => if p = "p1" then ("hello", true) else ("", false),
    intFor := fun _ => (0, false),
    boolFor := fun _ => (false, false) }

/-- The empty target record. -/
def emptyFields : Fields := fun _ => none

/-- Witness for C3 at a concrete table: the string pair ("f1", "p1"). -/
theorem mapFields_scalar_total_witness :
    (("f1", "p1") ∈ scalarCollection sampleMappings ScalarKind.strK) ∧
    ((∃ v, mapFields sampleMappings sampleSource emptyFields "f1" = some v) ∧
     ((allTargetFields sampleMappings).count "f1" = 1 →
       mapFields sampleMappings sampleSource emptyFields "f1" =
         some (scalarExpected sampleSource ScalarKind.strK "p1"))) :=
  ⟨by decide,
    mapFields_scalar_total sampleMappings sampleSource emptyFields
      ScalarKind.strK "f1" "p1" (by decide)⟩

/-- C4: for every nested (phone or geo) entry, the mapped record always
contains the target field; under the single-occurrence invariant its
value is `nestedWrite`, which resolves every sub-component to a string
and yields the explicit null marker when all components resolved empty,
and the composite string-keyed object otherwise — an all-empty composite
object is never emitted. -/
theorem mapFields_nested_total (m : FieldMappings) (src : SourceM)
    (c : Fields) (field : String) (sub : List (String × String))
    (hmem : (field, sub) ∈ m.phones ∨ (field, sub) ∈ m.geos) :
    (∃ v, mapFields m src c field = some v) ∧
    ((allTargetFields m).count field = 1 →
      mapFields m src c field = some (nestedWrite src sub)) ∧
    ((sub.map (fun cp => (cp.1, (src.stringFor cp.2).1))).all
        (fun comp => decide (comp.2 = "")) = true →
      nestedWrite src sub = OrttoValue.null) ∧
    ((sub.map (fun cp => (cp.1, (src.stringFor cp.2).1))).all
        (fun comp => decide (comp.2 = "")) = false →
      nestedWrite src sub =
        OrttoValue.obj (sub.map (fun cp => (cp.1, (src.stringFor cp.2).1)))) := by
  have hw : (field, nestedWrite src sub) ∈ writesFor m src := by
    rcases hmem with h | h
    · exact writesFor_mem_phone m src field sub h
    · exact writesFor_mem_geo m src field sub h
  refine ⟨?_, ?_, ?_, ?_⟩
  · have hfst : field ∈ (writesFor m src).map Prod.fst :=
      List.mem_map.mpr ⟨_, hw, rfl⟩
    unfold mapFields
    rw [foldl_setField_apply]
    exact Option.isSome_iff_exists.mp
      (foldl_lastWrite_isSome (writesFor m src) (c field) field hfst)
  · intro hcount
    exact mapFields_apply m src c field _ hw hcount
  · intro hall
    simp only [nestedWrite]
    rw [if_pos hall]
  · intro hall
    simp only [nestedWrite]
    rw [if_neg (by rw [hall]; exact Bool.false_ne_true)]

/-- Witness for C4 at a concrete table: the phone entry resolves its only
component to the empty string, so the field is set to the null marker. -/
theorem mapFields_nested_total_witness :
    (("ph", [("number", "p2")]) ∈ sampleMappings.phones ∨
      ("ph", [("number", "p2")]) ∈ sampleMappings.geos) ∧
    ((∃ v, mapFields sampleMappings sampleSource emptyFields "ph" = some v) ∧
     ((allTargetFields sampleMappings).count "ph" = 1 →
       mapFields sampleMappings sampleSource emptyFields "ph" =
         some (nestedWrite sampleSource [("number", "p2")])) ∧
     (([("number", "p2")].map
         (fun cp => (cp.1, (sampleSource.stringFor cp.2).1))).all
         (fun comp => decide (comp.2 = "")) = true →
       nestedWrite sampleSource [("number", "p2")] = OrttoValue.null) ∧
     (([("number", "p2")].map
         (fun cp => (cp.1, (sampleSource.stringFor cp.2).1))).all
         (fun comp => decide (comp.2 = "")) = false →
       nestedWrite sampleSource [("number", "p2")] =
         OrttoValue.obj ([("number", "p2")].map
           (fun cp => (cp.1, (sampleSource.stringFor cp.2).1))))) :=
  ⟨Or.inl (by decide),
    mapFields_nested_total sampleMappings sampleSource emptyFields "ph"
      [("number", "p2")] (Or.inl (by decide))⟩

/-! Model of the campaign cache (`CachedFundraisingCampaign`,
sync/modifiers.go).  The process-wide `sync.Map` is modelled as an
explicit map from campaign id to cached value; the live fetch outcome is
passed in as a parameter. -/

/-- The campaign cache keyed by campaign id. -/
def CampaignCache : Type := String → Option FundraisingCampaignModel

/-- `CachedFundraisingCampaign`: without a forced refresh a cache hit is
returned directly; otherwise the live fetch runs, a failure falls back
to any cached value (surfacing the error only on a cache miss), and a
success is stored. -/
def cachedFundraisingCampaign (cache : CampaignCache) (p2pID : String)
    (refresh : Bool)
    (fetchResult : Except String FundraisingCampaignModel) :
    Except String FundraisingCampaignModel × CampaignCache :=
  match refresh, cache p2pID with
  | false, some v => (Except.ok v, cache)
  | _, _ =>
    match fetchResult with
    | Except.error e =>
      match cache p2pID with
      | some v => (Except.ok v, cache)
      | none => (Except.error e, cache)
    | Except.ok c =>
      (Except.ok c, fun k => if k = p2pID then some c else cache k)

theorem cachedCampaign_hit (cache : CampaignCache) (id : String)
    (v : FundraisingCampaignModel)
    (fr : Except String FundraisingCampaignModel) (h : cache id = some v) :
    cachedFundraisingCampaign cache id false fr = (Except.ok v, cache) := by
  simp [cachedFundraisingCampaign, h]

/-- C6: a successful fetch followed by a failing fetch (no forced
refresh) returns the previously cached campaign, not an error; an error
is returned only when the live fetch fails and no cached value exists;
a successful fetch path stores its result; and no cached entry is ever
evicted by this operation. -/
theorem cachedCampaign_stale_fallback :
    (∀ (cache : CampaignCache) (id : String) (refresh : Bool)
        (c : FundraisingCampaignModel) (e : String),
      (refresh = true ∨ cache id = none) →
        (cachedFundraisingCampaign cache id refresh (Except.ok c)).1 =
          Except.ok c ∧
        (cachedFundraisingCampaign
          ((cachedFundraisingCampaign cache id refresh (Except.ok c)).2)
          id false (Except.error e)).1 = Except.ok c) ∧
    (∀ (cache : CampaignCache) (id : String) (refresh : Bool)
        (fr : Except String FundraisingCampaignModel) (e : String),
      (cachedFundraisingCampaign cache id refresh fr).1 = Except.error e →
        fr = Except.error e ∧ cache id = none) ∧
    (∀ (cache : CampaignCache) (id : String) (refresh : Bool)
        (c : FundraisingCampaignModel),
      (refresh = true ∨ cache id = none) →
        (cachedFundraisingCampaign cache id refresh (Except.ok c)).2 id =
          some c) ∧
    (∀ (cache : CampaignCache) (id : String) (refresh : Bool)
        (fr : Except String FundraisingCampaignModel) (k : String),
      cache k ≠ none →
        (cachedFundraisingCampaign cache id refresh fr).2 k ≠ none) := by
  refine ⟨?_, ?_, ?_, ?_⟩
  · intro cache id refresh c e hfetch
    have hstep :
        (cachedFundraisingCampaign cache id refresh (Except.ok c)).1 =
          Except.ok c ∧
        (cachedFundraisingCampaign cache id refresh (Except.ok c)).2 id =
          some c := by
      rcases hfetch with hr | hc
      · subst hr
        cases hcc : cache id <;> simp [cachedFundraisingCampaign, hcc]
      · cases refresh <;> simp [cachedFundraisingCampaign, hc]
    refine ⟨hstep.1, ?_⟩
    rw [cachedCampaign_hit _ _ _ _ hstep.2]
  · intro cache id refresh fr e herr
    cases refresh <;> cases hcc : cache id <;>
      cases fr <;>
      simp [cachedFundraisingCampaign, hcc] at herr <;>
      simp [herr, hcc]
  · intro cache id refresh c hfetch
    rcases hfetch with hr | hc
    · subst hr
      cases hcc : cache id <;> simp [cachedFundraisingCampaign, hcc]
    · cases refresh <;> simp [cachedFundraisingCampaign, hc]
  · intro cache id refresh fr k hk
    cases refresh <;> cases hcc : cache id <;> cases fr <;>
      simp [cachedFundraisingCampaign, hcc] <;>
      first
        | exact hk
        | (split <;> simp_all)

/-- Witness for C6 at a concrete cache state. -/
theorem cachedCampaign_stale_fallback_witness :
    ((fun _ => none : CampaignCache) "c1" = none) ∧
    ((cachedFundraisingCampaign (fun _ => none) "c1" false
        (Except.ok { pageDefaults := [] })).1 =
      Except.ok { pageDefaults := [] } ∧
     (cachedFundraisingCampaign
        ((cachedFundraisingCampaign (fun _ => none) "c1" false
          (Except.ok { pageDefaults := [] })).2)
        "c1" false (Except.error "boom")).1 =
      Except.ok { pageDefaults := [] }) :=
  ⟨rfl,
    cachedCampaign_stale_fallback.1 (fun _ => none) "c1" false
      { pageDefaults := [] } "boom" (Or.inr rfl)⟩

/-! Model of the concurrent fan-out `FetchFundraiserData`
(sync/modifiers.go).  Each sub-fetch writes its error into its own
variable; the join is `errors.Join(errPage, errLogs, errDonations)`,
which is insensitive to completion order, so the concurrent run is
rendered by its three outcomes. -/

/-- `errors.Join`: drop nils; nil when nothing failed, else the combined
error carrying every individual error in argument order. -/
def joinErrors (errs : List (Option String)) : Option (List String) :=
  let l := errs.filterMap id
  if l = [] then none else some l

/-- `FetchFundraiserData`: the page fetch always runs; the exercise-log
and donation fetches run only when the configuration requires them
(`MapActivityLogs`, `MapDonations`).  Returns `none` on success and the
joined error otherwise. -/
def fetchFundraiserDataErrors (mapLogs mapDonations : Bool)
    (errPage errLogs errDonations : Option String) : Option (List String) :=
  joinErrors
    [errPage,
     if mapLogs then errLogs else none,
     if mapDonations then errDonations else none]

/-- C7: with all three sub-fetches configured and all three failing, the
single returned error carries all three underlying failures in order
(never just the first); and the operation succeeds exactly when every
launched sub-fetch succeeds. -/
theorem fetchFundraiserData_join :
    (∀ e1 e2 e3 : String,
      fetchFundraiserDataErrors true true (some e1) (some e2) (some e3) =
        some [e1, e2, e3]) ∧
    (∀ (mapLogs mapDonations : Bool) (p l d : Option String),
      fetchFundraiserDataErrors mapLogs mapDonations p l d = none ↔
        (p = none ∧ (mapLogs = false ∨ l = none) ∧
          (mapDonations = false ∨ d = none))) := by
  constructor
  · intro e1 e2 e3
    simp [fetchFundraiserDataErrors, joinErrors]
  · intro mapLogs mapDonations p l d
    cases mapLogs <;> cases mapDonations <;> cases p <;> cases l <;> cases d <;>
      simp [fetchFundraiserDataErrors, joinErrors]

/-! Model of the transform engines (`ApplyFundraiserFieldTransforms` and
`ApplyTeamFieldTransforms`). -/

/-- Outcome of a transform engine: a configuration error returned with
`fmt.Errorf`, or the Go runtime panic raised by the unchecked
`.(string)` type assertion on the p2p-registration-id field. -/
inductive TransformErr where
  | cfgError (msg : String)
  | goPanic
  deriving DecidableEq

/-- The collaborators of `ApplyFundraiserFieldTransforms`: campaign page
defaults, the skip flag, the campaign prefix, the donation fetch
(p2p id and window end in Unix nanoseconds to the fetched
`TotalDonationAmount`), and the external `time.ParseDuration`. -/
structure TransformEnv where
  defaults : List (String × String)
  skipDonationCheck : Bool
  campaignTag : String
  donFetch : String → Int → Except String Int
  parseDur : List Char → Option Int

/-- `parts[0]` of `strings.Split(transform, ":")`. -/
def transformFunction (t : List Char) : List Char :=
  (splitOnChar ':' t).headI

/-- `parts[1]` of the split when present, else the empty string. -/
def transformArg (t : List Char) : List Char :=
  match splitOnChar ':' t with
  | _ :: a :: _ => a
  | _ => []

/-- One iteration of the `ApplyFundraiserFieldTransforms` loop after the
field-exists check, covering the four supported functions and the
unsupported-function error. -/
def applyOneFundraiserTransform (env : TransformEnv) (field : String)
    (t : List Char) (st : Fields) : Except TransformErr Fields :=
  let fn := transformFunction t
  let arg := transformArg t
  if fn = "blankIfDefault".toList then
    match st field with
    | some (OrttoValue.str s) =>
      Except.ok (env.defaults.foldl
        (fun st2 d =>
          if arg = d.1.toList ∧ s = d.2 then
            setField st2 field (OrttoValue.str "")
          else st2)
        st)
    | _ => Except.ok st
  else if fn = "onlyIfNotDefault".toList then
    match st field with
    | some (OrttoValue.str s) =>
      Except.ok (env.defaults.foldl
        (fun st2 d =>
          if arg = d.1.toList ∧ s = d.2 then deleteField st2 field else st2)
        st)
    | _ => Except.ok st
  else if fn = "warnIfEqual".toList then Except.ok st
  else if fn = "onlyIfSelfDonatedDuringRegistrationWindow".toList then
    if env.skipDonationCheck then Except.ok st
    else
      match splitOnChar ',' arg with
      | [a1, a2] =>
        match goAtoi a1 with
        | none => Except.error (TransformErr.cfgError "invalid first param")
        | some donationAmount =>
          match env.parseDur a2 with
          | none => Except.error (TransformErr.cfgError "invalid second param")
          | some dur =>
            match st ("tme:cm:" ++ env.campaignTag ++ "-registration-date") with
            | some (OrttoValue.str regDate) =>
              match parseRFC3339 regDate.toList with
              | none =>
                Except.error
                  (TransformErr.cfgError "failed to parse registration date")
              | some regTime =>
                match
                  st ("str:cm:" ++ env.campaignTag ++
                    "-p2p-registration-id") with
                | some (OrttoValue.str pid) =>
                  match env.donFetch pid (goTimeNanos regTime + dur) with
                  | Except.error _ =>
                    Except.error (TransformErr.cfgError
                      "failed to check self donation totals")
                  | Except.ok total =>
                    if total ≥ donationAmount then Except.ok st
                    else Except.ok (deleteField st field)
                | _ => Except.error TransformErr.goPanic
            | _ => Except.ok (deleteField st field)
      | _ =>
        Except.error
          (TransformErr.cfgError "invalid argument expected two params")
  else Except.error (TransformErr.cfgError "unsupported transform")

/-- `ApplyFundraiserFieldTransforms`: for each (field, transform) entry
require the field to exist in the record, then apply the transform;
errors abort the record's processing. -/
def applyFundraiserFieldTransforms (env : TransformEnv) :
    List (String × List Char) → Fields → Except TransformErr Fields
  | [], st => Except.ok st
  | (field, t) :: rest, st =>
    if st field = none then
      Except.error (TransformErr.cfgError "invalid transform, field does not exist")
    else
      match applyOneFundraiserTransform env field t st with
      | Except.error e => Except.error e
      | Except.ok st2 => applyFundraiserFieldTransforms env rest st2

/-- The loop of `ApplyTeamFieldTransforms` (after the captain and
organisation-type lookups). -/
def applyTeamTransformsLoop (captain : Bool) (orgType : String) :
    List (String × List Char) → Fields → Except TransformErr Fields
  | [], st => Except.ok st
  | (field, t) :: rest, st =>
    if st field = none then
      Except.error (TransformErr.cfgError "invalid transform, field does not exist")
    else
      let fn := transformFunction t
      if fn = "isCaptain".toList then
        applyTeamTransformsLoop captain orgType rest
          (setField st field (OrttoValue.bool captain))
      else if fn = "isMember".toList then
        applyTeamTransformsLoop captain orgType rest
          (setField st field (OrttoValue.bool (!captain)))
      else if fn = "onlyIfOrgTypeSchool".toList then
        applyTeamTransformsLoop captain orgType rest
          (if orgType ≠ "school" then deleteField st field else st)
      else Except.error (TransformErr.cfgError "unsupported transform")

/-- `ApplyTeamFieldTransforms`: an empty table is a no-op before any
lookup; otherwise a failing captain classification
(`HasSameOwnerAs`, passed in as a parameter) propagates, the
organisation type is lower-cased when non-empty, and the loop runs. -/
def applyTeamFieldTransforms (captainResult : Except String Bool)
    (orgTypeRaw : String) (ts : List (String × List Char)) (st : Fields) :
    Except TransformErr Fields :=
  if ts = [] then Except.ok st
  else
    match captainResult with
    | Except.error e => Except.error (TransformErr.cfgError e)
    | Except.ok captain =>
      let orgType := if orgTypeRaw ≠ "" then orgTypeRaw.toLower else orgTypeRaw
      applyTeamTransformsLoop captain orgType ts st

/-- The supported fundraiser transform function names. -/
def fundraiserSupported : List (List Char) :=
  ["blankIfDefault".toList, "onlyIfNotDefault".toList, "warnIfEqual".toList,
   "onlyIfSelfDonatedDuringRegistrationWindow".toList]

/-- The supported team transform function names. -/
def teamSupported : List (List Char) :=
  ["isCaptain".toList, "isMember".toList, "onlyIfOrgTypeSchool".toList]

theorem setField_other (st : Fields) (f : String) (v : OrttoValue)
    (k : String) (hk : k ≠ f) : setField st f v k = st k := by
  unfold setField
  rw [if_neg hk]

theorem deleteField_other (st : Fields) (f k : String) (hk : k ≠ f) :
    deleteField st f k = st k := by
  unfold deleteField
  rw [if_neg hk]

theorem foldl_fields_other {α : Type} (g : Fields → α → Fields) (k : String)
    (hg : ∀ st a, (g st a) k = st k) :
    ∀ (ds : List α) (st : Fields), (ds.foldl g st) k = st k := by
  intro ds
  induction ds with
  | nil => intro st; rfl
  | cons d ds ih =>
    intro st
    rw [List.foldl_cons, ih, hg]

theorem applyOneFundraiserTransform_other (env : TransformEnv)
    (field : String) (t : List Char) (st st2 : Fields) (k : String)
    (hk : k ≠ field)
    (h : applyOneFundraiserTransform env field t st = Except.ok st2) :
    st2 k = st k := by
  simp only [applyOneFundraiserTransform] at h
  repeat' split at h
  all_goals (try (cases h))
  all_goals
    first
      | rfl
      | exact deleteField_other st field k hk
      | (exact foldl_fields_other _ k
          (fun st3 d => by
            split
            · first
                | exact setField_other st3 field _ k hk
                | exact deleteField_other st3 field k hk
            · rfl)
          env.defaults st)

theorem applyOne_unsupported (env : TransformEnv) (field : String)
    (t : List Char) (st : Fields)
    (h : transformFunction t ∉ fundraiserSupported) :
    applyOneFundraiserTransform env field t st =
      Except.error (TransformErr.cfgError "unsupported transform") := by
  simp only [fundraiserSupported, List.mem_cons, List.not_mem_nil,
    or_false, not_or] at h
  obtain ⟨h1, h2, h3, h4⟩ := h
  simp only [applyOneFundraiserTransform]
  rw [if_neg h1, if_neg h2, if_neg h3, if_neg h4]

theorem fundraiser_missing_field (env : TransformEnv) :
    ∀ (ts : List (String × List Char)) (st : Fields),
      (∃ p ∈ ts, st p.1 = none) →
      ∃ e, applyFundraiserFieldTransforms env ts st = Except.error e := by
  intro ts
  induction ts with
  | nil =>
    intro st hex
    obtain ⟨p, hp, _⟩ := hex
    simp at hp
  | cons q rest ih =>
    intro st hex
    obtain ⟨p, hp, hnone⟩ := hex
    obtain ⟨field, t⟩ := q
    by_cases h0 : st field = none
    · refine ⟨TransformErr.cfgError "invalid transform, field does not exist", ?_⟩
      simp only [applyFundraiserFieldTransforms]
      rw [if_pos h0]
    · rcases List.mem_cons.mp hp with heq | hrest
      · rw [heq] at hnone
        exact absurd hnone h0
      · cases happ : applyOneFundraiserTransform env field t st with
        | error e =>
          refine ⟨e, ?_⟩
          simp only [applyFundraiserFieldTransforms]
          rw [if_neg h0, happ]
        | ok st2 =>
          have hne : p.1 ≠ field := fun hq => h0 (hq ▸ hnone)
          have hp2 : st2 p.1 = none := by
            rw [applyOneFundraiserTransform_other env field t st st2 p.1 hne
              happ]
            exact hnone
          obtain ⟨e, he⟩ := ih st2 ⟨p, hrest, hp2⟩
          refine ⟨e, ?_⟩
          simp only [applyFundraiserFieldTransforms]
          rw [if_neg h0, happ]
          exact he

theorem fundraiser_unknown_function (env : TransformEnv) :
    ∀ (ts : List (String × List Char)) (st : Fields),
      (∃ p ∈ ts, transformFunction p.2 ∉ fundraiserSupported) →
      ∃ e, applyFundraiserFieldTransforms env ts st = Except.error e := by
  intro ts
  induction ts with
  | nil =>
    intro st hex
    obtain ⟨p, hp, _⟩ := hex
    simp at hp
  | cons q rest ih =>
    intro st hex
    obtain ⟨p, hp, hfn⟩ := hex
    obtain ⟨field, t⟩ := q
    by_cases h0 : st field = none
    · refine ⟨TransformErr.cfgError "invalid transform, field does not exist", ?_⟩
      simp only [applyFundraiserFieldTransforms]
      rw [if_pos h0]
    · rcases List.mem_cons.mp hp with heq | hrest
      · have hu : applyOneFundraiserTransform env field t st =
            Except.error (TransformErr.cfgError "unsupported transform") := by
          apply applyOne_unsupported
          rw [heq] at hfn
          exact hfn
        refine ⟨TransformErr.cfgError "unsupported transform", ?_⟩
        simp only [applyFundraiserFieldTransforms]
        rw [if_neg h0, hu]
      · cases happ : applyOneFundraiserTransform env field t st with
        | error e =>
          refine ⟨e, ?_⟩
          simp only [applyFundraiserFieldTransforms]
          rw [if_neg h0, happ]
        | ok st2 =>
          obtain ⟨e, he⟩ := ih st2 ⟨p, hrest, hfn⟩
          refine ⟨e, ?_⟩
          simp only [applyFundraiserFieldTransforms]
          rw [if_neg h0, happ]
          exact he

theorem teamLoop_missing_field (captain : Bool) (orgType : String) :
    ∀ (ts : List (String × List Char)) (st : Fields),
      (∃ p ∈ ts, st p.1 = none) →
      ∃ e, applyTeamTransformsLoop captain orgType ts st = Except.error e := by
  intro ts
  induction ts with
  | nil =>
    intro st hex
    obtain ⟨p, hp, _⟩ := hex
    simp at hp
  | cons q rest ih =>
    intro st hex
    obtain ⟨p, hp, hnone⟩ := hex
    obtain ⟨field, t⟩ := q
    by_cases h0 : st field = none
    · refine ⟨TransformErr.cfgError "invalid transform, field does not exist", ?_⟩
      simp only [applyTeamTransformsLoop]
      rw [if_pos h0]
    · rcases List.mem_cons.mp hp with heq | hrest
      · rw [heq] at hnone
        exact absurd hnone h0
      · have hne : p.1 ≠ field := fun hq => h0 (hq ▸ hnone)
        by_cases hf1 : transformFunction t = "isCaptain".toList
        · obtain ⟨e, he⟩ := ih (setField st field (OrttoValue.bool captain))
            ⟨p, hrest, by rw [setField_other st field _ p.1 hne]; exact hnone⟩
          refine ⟨e, ?_⟩
          simp only [applyTeamTransformsLoop]
          rw [if_neg h0, if_pos hf1]
          exact he
        · by_cases hf2 : transformFunction t = "isMember".toList
          · obtain ⟨e, he⟩ := ih
              (setField st field (OrttoValue.bool (!captain)))
              ⟨p, hrest, by
                rw [setField_other st field _ p.1 hne]; exact hnone⟩
            refine ⟨e, ?_⟩
            simp only [applyTeamTransformsLoop]
            rw [if_neg h0, if_neg hf1, if_pos hf2]
            exact he
          · by_cases hf3 : transformFunction t = "onlyIfOrgTypeSchool".toList
            · obtain ⟨e, he⟩ := ih
                (if orgType ≠ "school" then deleteField st field else st)
                ⟨p, hrest, by
                  split
                  · rw [deleteField_other st field p.1 hne]; exact hnone
                  · exact hnone⟩
              refine ⟨e, ?_⟩
              simp only [applyTeamTransformsLoop]
              rw [if_neg h0, if_neg hf1, if_neg hf2, if_pos hf3]
              exact he
            · refine ⟨TransformErr.cfgError "unsupported transform", ?_⟩
              simp only [applyTeamTransformsLoop]
              rw [if_neg h0, if_neg hf1, if_neg hf2, if_neg hf3]

theorem teamLoop_unknown_function (captain : Bool) (orgType : String) :
    ∀ (ts : List (String × List Char)) (st : Fields),
      (∃ p ∈ ts, transformFunction p.2 ∉ teamSupported) →
      ∃ e, applyTeamTransformsLoop captain orgType ts st = Except.error e := by
  intro ts
  induction ts with
  | nil =>
    intro st hex
    obtain ⟨p, hp, _⟩ := hex
    simp at hp
  | cons q rest ih =>
    intro st hex
    obtain ⟨p, hp, hfn⟩ := hex
    obtain ⟨field, t⟩ := q
    by_cases h0 : st field = none
    · refine ⟨TransformErr.cfgError "invalid transform, field does not exist", ?_⟩
      simp only [applyTeamTransformsLoop]
      rw [if_pos h0]
    · rcases List.mem_cons.mp hp with heq | hrest
      · rw [heq] at hfn
        simp only [teamSupported, List.mem_cons, List.not_mem_nil,
          or_false, not_or] at hfn
        obtain ⟨h1, h2, h3⟩ := hfn
        refine ⟨TransformErr.cfgError "unsupported transform", ?_⟩
        simp only [applyTeamTransformsLoop]
        rw [if_neg h0, if_neg h1, if_neg h2, if_neg h3]
      · by_cases hf1 : transformFunction t = "isCaptain".toList
        · obtain ⟨e, he⟩ := ih (setField st field (OrttoValue.bool captain))
            ⟨p, hrest, hfn⟩
          refine ⟨e, ?_⟩
          simp only [applyTeamTransformsLoop]
          rw [if_neg h0, if_pos hf1]
          exact he
        · by_cases hf2 : transformFunction t = "isMember".toList
          · obtain ⟨e, he⟩ := ih
              (setField st field (OrttoValue.bool (!captain))) ⟨p, hrest, hfn⟩
            refine ⟨e, ?_⟩
            simp only [applyTeamTransformsLoop]
            rw [if_neg h0, if_neg hf1, if_pos hf2]
            exact he
          · by_cases hf3 : transformFunction t = "onlyIfOrgTypeSchool".toList
            · obtain ⟨e, he⟩ := ih
                (if orgType ≠ "school" then deleteField st field else st)
                ⟨p, hrest, hfn⟩
              refine ⟨e, ?_⟩
              simp only [applyTeamTransformsLoop]
              rw [if_neg h0, if_neg hf1, if_neg hf2, if_pos hf3]
              exact he
            · refine ⟨TransformErr.cfgError "unsupported transform", ?_⟩
              simp only [applyTeamTransformsLoop]
              rw [if_neg h0, if_neg hf1, if_neg hf2, if_neg hf3]

/-- C8: in both transform engines, a transform-table entry whose field is
absent from the record's field map makes the engine return an error for
that record (never silently skipped), and an entry whose function name
is not one of the supported functions likewise makes the engine return
an error rather than being ignored. -/
theorem transform_engines_config_errors :
    (∀ (env : TransformEnv) (ts : List (String × List Char)) (st : Fields),
      (∃ p ∈ ts, st p.1 = none) →
      ∃ e, applyFundraiserFieldTransforms env ts st = Except.error e) ∧
    (∀ (env : TransformEnv) (ts : List (String × List Char)) (st : Fields),
      (∃ p ∈ ts, transformFunction p.2 ∉ fundraiserSupported) →
      ∃ e, applyFundraiserFieldTransforms env ts st = Except.error e) ∧
    (∀ (cap : Except String Bool) (org : String)
        (ts : List (String × List Char)) (st : Fields),
      (∃ p ∈ ts, st p.1 = none) →
      ∃ e, applyTeamFieldTransforms cap org ts st = Except.error e) ∧
    (∀ (cap : Except String Bool) (org : String)
        (ts : List (String × List Char)) (st : Fields),
      (∃ p ∈ ts, transformFunction p.2 ∉ teamSupported) →
      ∃ e, applyTeamFieldTransforms cap org ts st = Except.error e) := by
  refine ⟨fundraiser_missing_field, fundraiser_unknown_function, ?_, ?_⟩
  · intro cap org ts st hex
    have hts : ts ≠ [] := by
      obtain ⟨p, hp, _⟩ := hex
      intro h
      rw [h] at hp
      simp at hp
    unfold applyTeamFieldTransforms
    rw [if_neg hts]
    cases cap with
    | error e => exact ⟨TransformErr.cfgError e, rfl⟩
    | ok captain => exact teamLoop_missing_field captain _ ts st hex
  · intro cap org ts st hex
    have hts : ts ≠ [] := by
      obtain ⟨p, hp, _⟩ := hex
      intro h
      rw [h] at hp
      simp at hp
    unfold applyTeamFieldTransforms
    rw [if_neg hts]
    cases cap with
    | error e => exact ⟨TransformErr.cfgError e, rfl⟩
    | ok captain => exact teamLoop_unknown_function captain _ ts st hex

/-- A trivial transform environment for the witness. -/
def env0 : TransformEnv :=
  { defaults := [], skipDonationCheck := false, campaignTag := "c",
    donFetch := fun _ _ => Except.error "e", parseDur := fun _ => none }

/-- Witness for C8 at a concrete input: a one-entry table naming a field
absent from the empty record makes the fundraiser engine error. -/
theorem transform_engines_config_errors_witness :
    (∃ p ∈ [("missing", "warnIfEqual".toList)],
      emptyFields p.1 = (none : Option OrttoValue)) ∧
    (∃ e, applyFundraiserFieldTransforms env0
      [("missing", "warnIfEqual".toList)] emptyFields = Except.error e) :=
  ⟨⟨("missing", "warnIfEqual".toList), by simp, rfl⟩,
    transform_engines_config_errors.1 env0
      [("missing", "warnIfEqual".toList)] emptyFields
      ⟨("missing", "warnIfEqual".toList), by simp, rfl⟩⟩
